import Mathlib

/-!
Verification development for the sentiment-driven stock prediction engine.

The definitions below are a shallow embedding of the ingestion-fusion
pipeline of the repository:
  * `NewsTasks`  embeds news/tasks.py (fetch_and_process_news,
    _process_articles, normalize_title, _parse_date, dedup keys);
  * `SHA256`     is a faithful implementation of the SHA-256 digest used by
    hashlib.sha256(...).hexdigest() in news/tasks.py, over Nat with
    explicit reduction mod 2^32;
  * `NewsUtils`  embeds news/utils.py (analyze_sentiment and the merged
    FinBERT configuration from settings.py);
  * `StockEngine` embeds stocks/opinion_generator.py (TechnicalAnalyzer
    fallback, the deterministic fallback opinion, risk metrics,
    recommendation normalization, full_analysis control flow);
  * `OpinionSentiment` embeds InstitutionalAnalysisEngine._analyze_sentiment
    over ℝ (the recency weight is a real exponential).

Python float arithmetic is modelled exactly over ℚ (or ℝ where a
transcendental function appears); external effects (HTTP fetches, the
FinBERT model, spaCy, the LLM call, the price-history source) are passed
in as explicit function or data parameters.
-/

set_option maxHeartbeats 1000000
set_option maxRecDepth 8192

namespace StockEngine

/-- Market regime classification (opinion_generator.py, class MarketRegime). -/
inductive MarketRegime where
  | bull
  | bear
  | neutral
deriving DecidableEq, Repr

/-- Result of MarketRegimeDetector.get_current_regime. -/
structure MarketRegimeResult where
  regime : MarketRegime
  confidence : ℚ
deriving DecidableEq, Repr

/-- TechnicalMetrics (opinion_generator.py).  The black_litterman dict is
not modelled (no claim touches it); percentile_rank is split into its two
numeric entries. -/
structure TechnicalMetrics where
  sma_50 : ℚ
  sma_200 : ℚ
  rsi : ℚ
  current_price : ℚ
  volatility : ℚ
  confidence : ℚ
  macd : Option ℚ
  macd_signal : Option ℚ
  obv : Option ℚ
  adx : Option ℚ
  percentile_sector : ℚ
  percentile_market : ℚ
  market_regime : MarketRegimeResult
deriving DecidableEq, Repr

/-- The degraded snapshot returned by TechnicalAnalyzer.analyze when any
exception escapes the fetch/compute path (opinion_generator.py lines
318-330): sma_50=0, sma_200=0, rsi=50, current_price=0, volatility=0,
confidence=0, percentile_rank 50/50, regime neutral with confidence 50. -/
def fallbackMetrics : TechnicalMetrics :=
  { sma_50 := 0
  , sma_200 := 0
  , rsi := 50
  , current_price := 0
  , volatility := 0
  , confidence := 0
  , macd := none
  , macd_signal := none
  , obv := none
  , adx := none
  , percentile_sector := 50
  , percentile_market := 50
  , market_regime := { regime := MarketRegime.neutral, confidence := 50 } }

/-- TechnicalAnalyzer.analyze.  `fetched` is the result of _fetch_data
(none models an exception escaping the fetch; the inner list models the
downloaded close series, empty meaning an empty DataFrame).  `compute` models
_calculate_metrics together with the regime detector (returning none when
any exception is raised while computing).  Every failure path lands in the
degraded snapshot, so the function is total: it never throws. -/
def analyze (fetched : Option (List ℚ)) (compute : List ℚ → Option TechnicalMetrics) :
    TechnicalMetrics :=
  match fetched with
  | none => fallbackMetrics
  | some data =>
    if data = [] then fallbackMetrics
    else
      match compute data with
      | none => fallbackMetrics
      | some m => m

/-- Outcome of InstitutionalAnalysisEngine._generate_llm_opinion /
_generate_fallback_opinion, as consumed by _format_response.  The
rationale strings (f-strings interpolating floats) are not modelled. -/
structure LLMResponse where
  recommendation : String
  targets_base : ℚ
  targets_bull : ℚ
  targets_bear : ℚ
  risks : List String
  source : String
deriving DecidableEq, Repr

/-- The deterministic action of _generate_fallback_opinion
(opinion_generator.py lines 705-711). -/
def fallback_recommendation (technicals : TechnicalMetrics) (sentiment_score : ℚ) :
    String :=
  if sentiment_score > 3/10 ∧ technicals.current_price > technicals.sma_200 then
    ("BUY")
  else if sentiment_score < -(3/10) ∧ technicals.current_price < technicals.sma_200 then
    ("SELL")
  else
    ("HOLD")

/-- InstitutionalAnalysisEngine._generate_fallback_opinion
(opinion_generator.py lines 698-734). -/
def generate_fallback_opinion (technicals : TechnicalMetrics) (sentiment_score : ℚ) :
    LLMResponse :=
  let price := technicals.current_price
  let base_multiplier := 105/100 + sentiment_score * (1/10)
  let bull_multiplier := 115/100 + sentiment_score * (1/10)
  let bear_multiplier := 95/100 + sentiment_score * (1/10)
  { recommendation := fallback_recommendation technicals sentiment_score
  , targets_base := price * base_multiplier
  , targets_bull := price * bull_multiplier
  , targets_bear := price * bear_multiplier
  , risks :=
      [ (if technicals.volatility > 3/10 then ("High volatility")
         else ("Moderate volatility"))
      , (if sentiment_score < -(1/5) then ("Negative sentiment")
         else ("Neutral sentiment")) ]
  , source := ("fallback") }

/-- InstitutionalAnalysisEngine._normalize_recommendation
(opinion_generator.py lines 855-867). -/
def normalize_recommendation (recommendation : String) : String × ℕ :=
  let normalized := ((recommendation.splitOn ("-")).headD ("")).trim.toUpper
  if normalized = ("STRONG_BUY") then (("strong_buy"), 90)
  else if normalized = ("BUY") then (("buy"), 75)
  else if normalized = ("HOLD") then (("hold"), 50)
  else if normalized = ("SELL") then (("sell"), 25)
  else if normalized = ("STRONG_SELL") then (("strong_sell"), 10)
  else (("hold"), 50)

structure RiskMetrics where
  stop_loss : ℚ
  take_profit : ℚ
  risk_reward_ratio : ℚ
deriving DecidableEq, Repr

/-- InstitutionalAnalysisEngine._calculate_risk_metrics
(opinion_generator.py lines 869-880).  The division is unguarded in the
source; a zero denominator raises ZeroDivisionError, modelled as none. -/
def calculate_risk_metrics (technicals : TechnicalMetrics) : Option RiskMetrics :=
  let stop_loss := technicals.sma_200 * (95/100)
  let take_profit := technicals.sma_50 * (105/100)
  if technicals.current_price - stop_loss = 0 then none
  else
    some
      { stop_loss := stop_loss
      , take_profit := take_profit
      , risk_reward_ratio :=
          (take_profit - technicals.current_price) /
            (technicals.current_price - stop_loss) }

/-- InstitutionalAnalysisEngine._calculate_composite_confidence
(opinion_generator.py lines 840-853). -/
def calculate_composite_confidence (technical sentiment news : ℚ) : ℚ :=
  (1/2) * technical + (3/10) * sentiment + (1/5) * news

/-- The parts of the _format_response output relevant to the claims. -/
structure FormattedResponse where
  action : String
  action_confidence : ℕ
  risk_metrics : RiskMetrics
  risks : List String
  composite_confidence : ℚ
deriving DecidableEq, Repr

/-- InstitutionalAnalysisEngine._format_response (opinion_generator.py
lines 736-807), restricted to the claim-relevant fields.  Returns none
when _calculate_risk_metrics raises (the exception propagates to
full_analysis). -/
def format_response (technicals : TechnicalMetrics)
    (sentiment_confidence news_reliability : ℚ) (llm : LLMResponse) :
    Option FormattedResponse :=
  match calculate_risk_metrics technicals with
  | none => none
  | some rm =>
    let nr := normalize_recommendation llm.recommendation
    some
      { action := nr.1
      , action_confidence := nr.2
      , risk_metrics := rm
      , risks := llm.risks
      , composite_confidence :=
          calculate_composite_confidence technicals.confidence
            sentiment_confidence news_reliability }

/-- Result of full_analysis: either the formatted recommendation or the
error-shaped dict built by _error_response. -/
inductive AnalysisOutcome where
  | err (message : String)
  | ok (r : FormattedResponse)
deriving DecidableEq, Repr

/-- The risks list of an outcome (empty for the error shape, which carries
no risks key). -/
def AnalysisOutcome.risksOf : AnalysisOutcome → List String
  | .err _ => []
  | .ok r => r.risks

/-- InstitutionalAnalysisEngine.full_analysis (opinion_generator.py lines
536-547).  `llm` is some r when the Hugging Face call returned a parsed
200 response, none when it failed (then the deterministic fallback is
used).  Any exception inside the try-block, in particular the
ZeroDivisionError of _calculate_risk_metrics, resolves to the error
response. -/
def full_analysis (technicals : TechnicalMetrics) (sentiment_score : ℚ)
    (sentiment_confidence news_reliability : ℚ) (llm : Option LLMResponse) :
    AnalysisOutcome :=
  if technicals.current_price = 0 then .err ("Technical analysis failed")
  else
    let llmr :=
      match llm with
      | some r => r
      | none => generate_fallback_opinion technicals sentiment_score
    match format_response technicals sentiment_confidence news_reliability llmr with
    | none => .err ("float division by zero")
    | some r => .ok r

end StockEngine

namespace NewsUtils

/-- DEFAULT_CONFIG value of min_text_length in news/utils.py. -/
def default_min_text_length : ℕ := 20

/-- DEFAULT_CONFIG value of max_text_length in news/utils.py. -/
def default_max_text_length : ℕ := 2000

/-- settings.FINBERT_CONFIG value of min_text_length (settings.py). -/
def settings_min_text_length : ℕ := 25

/-- settings.FINBERT_CONFIG value of max_text_length (settings.py). -/
def settings_max_text_length : ℕ := 1500

/-- Merged config of news/utils.py: settings.FINBERT_CONFIG entries
override DEFAULT_CONFIG entries, so min_text_length is 25. -/
def config_min_text_length : ℕ := settings_min_text_length

/-- Merged config value of max_text_length (1500, from settings). -/
def config_max_text_length : ℕ := settings_max_text_length

/-- The label/score dict returned by analyze_sentiment. -/
structure SentimentResult where
  label : String
  score : ℚ
deriving DecidableEq, Repr

/-- The degraded result used on every failure path. -/
def neutral_result : SentimentResult := { label := ("neutral"), score := 0 }

/-- analyze_sentiment of news/utils.py (lines 155-190).  `model_available`
models validate_model() (tokenizer and FinBERT model loadable); `model`
models the tokenizer+inference call on the truncated text, returning none
when it raises (out of memory or any other exception).  The source
lowercases the raw model label before returning it. -/
def analyze_sentiment (model_available : Bool)
    (model : String → Option SentimentResult) (text : String) : SentimentResult :=
  if model_available = false then neutral_result
  else
    let t := text.trim
    if t.length < config_min_text_length then neutral_result
    else
      match model (t.take config_max_text_length) with
      | none => neutral_result
      | some r => { label := r.label.toLower, score := r.score }

end NewsUtils

namespace SHA256

/-- Word size modulus 2^32. -/
def B32 : ℕ := 4294967296

/-- Reduce to a 32-bit word. -/
def w32 (n : ℕ) : ℕ := n % B32

/-- Right-rotation of a 32-bit word by n bits, expressed arithmetically:
the low n bits move to the top. -/
def rotr (n x : ℕ) : ℕ :=
  let x := w32 x
  x / 2 ^ n + x % 2 ^ n * 2 ^ (32 - n)

/-- Big sigma-0 on the working register a. -/
def bigS0 (x : ℕ) : ℕ := rotr 2 x ^^^ rotr 13 x ^^^ rotr 22 x

/-- Big sigma-1 on the working register e. -/
def bigS1 (x : ℕ) : ℕ := rotr 6 x ^^^ rotr 11 x ^^^ rotr 25 x

/-- Small sigma-0 used in the message schedule. -/
def smallS0 (x : ℕ) : ℕ := rotr 7 x ^^^ rotr 18 x ^^^ w32 x / 2 ^ 3

/-- Small sigma-1 used in the message schedule. -/
def smallS1 (x : ℕ) : ℕ := rotr 17 x ^^^ rotr 19 x ^^^ w32 x / 2 ^ 10

/-- The 64 SHA-256 round constants, written in decimal. -/
def K : List ℕ :=
  [ 1116352408, 1899447441, 3049323471, 3921009573
  , 961987163, 1508970993, 2453635748, 2870763221
  , 3624381080, 310598401, 607225278, 1426881987
  , 1925078388, 2162078206, 2614888103, 3248222580
  , 3835390401, 4022224774, 264347078, 604807628
  , 770255983, 1249150122, 1555081692, 1996064986
  , 2554220882, 2821834349, 2952996808, 3210313671
  , 3336571891, 3584528711, 113926993, 338241895
  , 666307205, 773529912, 1294757372, 1396182291
  , 1695183700, 1986661051, 2177026350, 2456956037
  , 2730485921, 2820302411, 3259730800, 3345764771
  , 3516065817, 3600352804, 4094571909, 275423344
  , 430227734, 506948616, 659060556, 883997877
  , 958139571, 1322822218, 1537002063, 1747873779
  , 1955562222, 2024104815, 2227730452, 2361852424
  , 2428436474, 2756734187, 3204031479, 3329325298 ]

/-- The eight hash words. -/
structure Hash8 where
  h0 : ℕ
  h1 : ℕ
  h2 : ℕ
  h3 : ℕ
  h4 : ℕ
  h5 : ℕ
  h6 : ℕ
  h7 : ℕ
deriving DecidableEq, Repr

/-- Initial hash value, written in decimal. -/
def initH : Hash8 :=
  ⟨1779033703, 3144134277, 1013904242, 2773480762,
   1359893119, 2600822924, 528734635, 1541459225⟩

/-- Pack big-endian groups of four bytes into 32-bit words. -/
def toWords : List ℕ → List ℕ
  | b0 :: b1 :: b2 :: b3 :: rest =>
      (((b0 * 256 + b1) * 256 + b2) * 256 + b3) :: toWords rest
  | _ => []

/-- Extend a 16-word block by k scheduled words. -/
def extendSchedule : List ℕ → ℕ → List ℕ
  | w, 0 => w
  | w, Nat.succ k =>
      let i := w.length
      let x := w32 (w.getD (i - 16) 0 + smallS0 (w.getD (i - 15) 0) +
        w.getD (i - 7) 0 + smallS1 (w.getD (i - 2) 0))
      extendSchedule (w ++ [x]) k

/-- The full 64-word message schedule of one block. -/
def schedule (block16 : List ℕ) : List ℕ := extendSchedule block16 48

/-- The eight working registers. -/
structure Regs where
  a : ℕ
  b : ℕ
  c : ℕ
  d : ℕ
  e : ℕ
  f : ℕ
  g : ℕ
  h : ℕ
deriving DecidableEq, Repr

/-- One compression round with round constant and scheduled word kw. -/
def compressStep (r : Regs) (kw : ℕ × ℕ) : Regs :=
  let ch := (w32 r.e &&& r.f) ^^^ ((4294967295 - w32 r.e) &&& r.g)
  let t1 := w32 (r.h + bigS1 r.e + ch + kw.1 + kw.2)
  let maj := (r.a &&& r.b) ^^^ (r.a &&& r.c) ^^^ (r.b &&& r.c)
  let t2 := w32 (bigS0 r.a + maj)
  ⟨w32 (t1 + t2), r.a, r.b, r.c, w32 (r.d + t1), r.e, r.f, r.g⟩

/-- Process one 64-byte block. -/
def processBlock (h : Hash8) (block : List ℕ) : Hash8 :=
  let w := schedule (toWords block)
  let r0 : Regs := ⟨h.h0, h.h1, h.h2, h.h3, h.h4, h.h5, h.h6, h.h7⟩
  let r := (K.zip w).foldl compressStep r0
  ⟨w32 (h.h0 + r.a), w32 (h.h1 + r.b), w32 (h.h2 + r.c), w32 (h.h3 + r.d),
   w32 (h.h4 + r.e), w32 (h.h5 + r.f), w32 (h.h6 + r.g), w32 (h.h7 + r.h)⟩

/-- Big-endian 8-byte encoding of the bit length. -/
def be64 (n : ℕ) : List ℕ :=
  [ n / 2 ^ 56 % 256, n / 2 ^ 48 % 256, n / 2 ^ 40 % 256, n / 2 ^ 32 % 256
  , n / 2 ^ 24 % 256, n / 2 ^ 16 % 256, n / 2 ^ 8 % 256, n % 256 ]

/-- Standard SHA-256 padding: 0x80, zeros, 64-bit big-endian bit length,
to a multiple of 64 bytes. -/
def padMessage (msg : List ℕ) : List ℕ :=
  let L := msg.length
  let z := (119 - L % 64) % 64
  msg ++ 128 :: (List.replicate z 0 ++ be64 (8 * L))

/-- Split into 64-byte chunks. -/
def chunk64 : List ℕ → List (List ℕ)
  | [] => []
  | x :: rest => (x :: rest).take 64 :: chunk64 ((x :: rest).drop 64)
termination_by l => l.length
decreasing_by
  simp only [List.length_drop, List.length_cons]
  omega

/-- The eight digest words of a byte message. -/
def sha256Words (msg : List ℕ) : Hash8 :=
  (chunk64 (padMessage msg)).foldl processBlock initH

/-- The digest as a single natural number below 2^256. -/
def digestNat (h : Hash8) : ℕ :=
  ((((((w32 h.h0 * B32 + w32 h.h1) * B32 + w32 h.h2) * B32 + w32 h.h3) * B32 +
    w32 h.h4) * B32 + w32 h.h5) * B32 + w32 h.h6) * B32 + w32 h.h7

/-- SHA-256 digest of a byte message as a natural number. -/
def sha256Nat (msg : List ℕ) : ℕ := digestNat (sha256Words msg)

/-- Lowercase hexadecimal digit characters. -/
def hexChar (n : ℕ) : Char :=
  if n < 10 then ([ '0', '1', '2', '3', '4', '5', '6', '7', '8', '9' ]).getD n ( '0')
  else ([ 'a', 'b', 'c', 'd', 'e', 'f' ]).getD (n - 10) ( '0')

/-- Fixed-width big-endian hexadecimal rendering. -/
def hexDigitsAux : ℕ → ℕ → List Char
  | _, 0 => []
  | n, Nat.succ k => hexDigitsAux (n / 16) k ++ [hexChar (n % 16)]

/-- hashlib hexdigest: 64 lowercase hex characters. -/
def sha256hex (msg : List ℕ) : String := String.mk (hexDigitsAux (sha256Nat msg) 64)

end SHA256

/-- UTF-8 encoding of a code point, byte list (1 to 4 bytes). -/
def utf8Bytes (c : ℕ) : List ℕ :=
  if c < 128 then [c]
  else if c < 2048 then [192 + c / 64, 128 + c % 64]
  else if c < 65536 then [224 + c / 4096, 128 + c / 64 % 64, 128 + c % 64]
  else [240 + c / 262144, 128 + c / 4096 % 64, 128 + c / 64 % 64, 128 + c % 64]

/-- The UTF-8 bytes of a string, modelling str.encode in Python. -/
def strBytes (s : String) : List ℕ :=
  (s.data.map (fun c => utf8Bytes c.toNat)).flatten

namespace NewsTasks

/-- Whether a character matches the regex class backslash-w (word
character), restricted to ASCII as used by the titles in this
development: letters, digits and underscore. -/
def isWordChar (c : Char) : Bool := c.isAlphanum || c = '_'

/-- Helper of collapseWs: the flag records whether the previous character
belonged to a whitespace run that already emitted its single space. -/
def collapseWsAux : Bool → List Char → List Char
  | _, [] => []
  | prevWs, c :: rest =>
    if c.isWhitespace then
      if prevWs then collapseWsAux true rest
      else ' ' :: collapseWsAux true rest
    else c :: collapseWsAux false rest

/-- Collapse every maximal whitespace run into a single space
(re.sub of one-or-more whitespace to a single space). -/
def collapseWs (l : List Char) : List Char := collapseWsAux false l

/-- normalize_title of news/tasks.py (lines 33-41): strip and lowercase,
collapse whitespace runs to one space, then delete every character that is
neither a word character nor whitespace.  The source treats a None title
through the or-chain of its caller, so only the string case appears here. -/
def normalize_title (title : String) : String :=
  let t := (title.trim.toLower).data
  String.mk ((collapseWs t).filter (fun c => isWordChar c || c.isWhitespace))

/-- get_source_reliability of news/tasks.py (lines 53-63). -/
def get_source_reliability (source : String) : ℕ :=
  let s := source.toLower
  if s = ("financial times") then 90
  else if s = ("bloomberg") then 95
  else if s = ("reuters") then 85
  else if s = ("yahoo finance") then 80
  else 50

/-- A JSON date value as met by _parse_date: either an integer epoch
value or a string. -/
inductive DateVal where
  | ival (v : ℤ)
  | sval (s : String)
deriving DecidableEq, Repr

/-- Python truthiness of a date value (0 and the empty string are falsy). -/
def truthyDate : DateVal → Bool
  | .ival v => decide (v ≠ 0)
  | .sval s => decide (s ≠ (""))

/-- A raw provider article (the dict shapes of Alpha Vantage, Finnhub and
Yahoo Finance normalised into one record of optional fields; a missing
dict key is none).  banner_image_url is assigned by every fetcher before
processing, so it is a plain string. -/
structure RawArticle where
  title : Option String := none
  headline : Option String := none
  description : Option String := none
  summary : Option String := none
  source : Option String := none
  publisher : Option String := none
  url : Option String := none
  link : Option String := none
  time_published : Option DateVal := none
  date_time : Option DateVal := none
  date : Option DateVal := none
  pubDate : Option DateVal := none
  banner_image_url : String := ("")
deriving DecidableEq, Repr

/-- Python `a or b` on an optional string with default b: the first
operand wins when it is truthy (present and non-empty). -/
def orStr (a : Option String) (b : String) : String :=
  match a with
  | some s => if s = ("") then b else s
  | none => b

/-- The title expression of _process_articles: get title or headline or
description with empty default. -/
def effectiveTitle (a : RawArticle) : String :=
  orStr a.title (orStr a.headline (a.description.getD ("")))

/-- datetime.fromtimestamp bounds (years 1 to 9999), in epoch seconds. -/
def tsMin : ℚ := -62135596800

/-- Upper datetime.fromtimestamp bound in epoch seconds. -/
def tsMax : ℚ := 253402300799

/-- Whether an epoch-second value is representable as a datetime. -/
def tsInRange (q : ℚ) : Bool := decide (tsMin ≤ q) && decide (q ≤ tsMax)

/-- Outcome of one _parse_date call: a parsed UTC epoch-second value, a
None return (the caller drops the article), or an exception escaping the
function uncaught. -/
inductive DateParse where
  | ok (t : ℚ)
  | invalid
  | raises
deriving DecidableEq, Repr

/-- The integer branch of _parse_date (lines 341-345): try epoch
milliseconds first, fall back to epoch seconds on ValueError.  The
fallback fromtimestamp call sits outside any try, so a value out of
datetime range under both the milliseconds and the seconds reading
raises an uncaught ValueError/OSError out of _parse_date. -/
def parseEpoch (v : ℤ) : DateParse :=
  if tsInRange ((v : ℚ) / 1000) then .ok ((v : ℚ) / 1000)
  else if tsInRange (v : ℚ) then .ok (v : ℚ) else .raises

/-- The or-chain over the four date keys combined with the falsy check:
the result is the first truthy value, if any. -/
def firstTruthyDate (l : List (Option DateVal)) : Option DateVal :=
  (l.filterMap id).find? truthyDate

/-- _parse_date of news/tasks.py (lines 329-364).  `strParse` models the
strptime format chain plus the dateutil fallback, mapping a date string
to UTC epoch seconds (none when every parse attempt fails); every
exception of the string branch is caught inside _parse_date, so only the
integer branch can raise. -/
def parse_date (strParse : String → Option ℚ) (a : RawArticle) : DateParse :=
  match firstTruthyDate [a.time_published, a.date_time, a.date, a.pubDate] with
  | none => .invalid
  | some (.ival v) => parseEpoch v
  | some (.sval s) =>
    match strParse s with
    | some t => .ok t
    | none => .invalid

/-- Python round: round-half-to-even on exact rationals. -/
def pyRound (q : ℚ) : ℤ :=
  let f := ⌊q⌋
  let r := q - (f : ℚ)
  if r < 1/2 then f
  else if 1/2 < r then f + 1
  else if Even f then f else f + 1

/-- The minute bucket of an epoch-second timestamp: round(ts / 60). -/
def minuteBucket (t : ℚ) : ℤ := pyRound (t / 60)

/-- The string that is hashed: normalized title, underscore, and the
timestamp rounded to the nearest minute (round(ts / 60) * 60). -/
def uniqueString (ntitle : String) (t : ℚ) : String :=
  ntitle ++ ("_") ++ toString (60 * minuteBucket t)

/-- The content fingerprint (title_hash): SHA-256 hexdigest of the UTF-8
encoded unique string. -/
def content_fingerprint (ntitle : String) (t : ℚ) : String :=
  SHA256.sha256hex (strBytes (uniqueString ntitle t))

/-- The per-article fields written by update_or_create (the defaults dict
of _process_articles).  raw_data keeps the provider payload. -/
structure ArticleFields where
  title : String
  summary : String
  source : String
  url : String
  published_at : ℚ
  sentiment : String
  sentiment_score : ℚ
  key_phrases : String
  source_reliability : ℕ
  banner_image_url : String
  raw_data : RawArticle
deriving DecidableEq, Repr

/-- A persisted ProcessedNews row: the upsert key (title_hash, symbol),
the writable fields, and the automatic timestamp columns created_at
(auto_now_add, set once at insert) and updated_at (auto_now, refreshed by
every save). -/
structure DBRecord where
  title_hash : String
  symbol : String
  flds : ArticleFields
  created_at : ℚ
  updated_at : ℚ
deriving DecidableEq, Repr

/-- The article store. -/
abbrev DB := List DBRecord

/-- The upsert key of a record. -/
def keyOf (r : DBRecord) : String × String := (r.title_hash, r.symbol)

/-- All upsert keys of the store. -/
def dbKeys (db : DB) : List (String × String) := db.map keyOf

/-- Whether a record with the given key exists. -/
def keyMem (db : DB) (k sym : String) : Bool :=
  db.any (fun r => r.title_hash == k && r.symbol == sym)

/-- Number of records stored under a key. -/
def countKey (db : DB) (k sym : String) : ℕ :=
  (db.filter (fun r => r.title_hash == k && r.symbol == sym)).length

/-- The store has at most one record per (title_hash, symbol), the unique
constraint of the ProcessedNews model. -/
def nodupKeys (db : DB) : Prop := (dbKeys db).Nodup

/-- The store stripped of its automatic timestamp columns: the key and
field content of each record, in order. -/
def dbContent (db : DB) : List (String × String × ArticleFields) :=
  db.map (fun r => (r.title_hash, r.symbol, r.flds))

/-- The record found under a key carries exactly the given fields (its
automatic timestamp columns are unconstrained). -/
def foundWith (db : DB) (k sym : String) (f : ArticleFields) : Prop :=
  ∃ c u : ℚ, db.find? (fun x => x.title_hash == k && x.symbol == sym) =
    some ⟨k, sym, f, c, u⟩

/-- Overwrite the fields of the (unique) record with the given key,
refreshing its auto_now updated_at stamp with the write time. -/
def replaceFirst (now : ℚ) (db : DB) (k sym : String) (f : ArticleFields) : DB :=
  match db with
  | [] => []
  | r :: rest =>
    if r.title_hash == k && r.symbol == sym then
      { r with flds := f, updated_at := now } :: rest
    else r :: replaceFirst now rest k sym f

/-- The store effect of a successful save through update_or_create:
overwrite the record of an existing key (refreshing updated_at), or
insert a new record with both automatic stamps set to the write time. -/
def upsert (now : ℚ) (db : DB) (k sym : String) (f : ArticleFields) :
    Bool × DB :=
  if keyMem db k sym then (false, replaceFirst now db k sym f)
  else (true, ⟨k, sym, f, now, now⟩ :: db)

/-- ProcessedNews.objects.update_or_create keyed on (title_hash, symbol):
returns the created flag and the new store.  Both of its paths go through
ProcessedNews.save, which raises ValidationError on a falsy symbol
(news/models.py line 164) before anything is written; the raise is
modelled as none. -/
def update_or_create (now : ℚ) (db : DB) (k sym : String)
    (f : ArticleFields) : Option (Bool × DB) :=
  if sym = ("") then none else some (upsert now db k sym f)

/-- The enrichment performed on one article of the batch (the body of the
phase-2 loop): sentiment over title plus summary, key phrases, source
reliability, and the defaults dict.  `scorer` models
news/utils.analyze_sentiment (total, see NewsUtils); `phraseFn` models
extract_key_phrases (spaCy noun chunks). -/
def mkDefaults (scorer : String → NewsUtils.SentimentResult)
    (phraseFn : String → List String) (a : RawArticle) (ntitle : String)
    (t : ℚ) : ArticleFields :=
  let content := ntitle ++ (" ") ++ a.summary.getD ("")
  let sres := scorer content
  let source := orStr a.source (a.publisher.getD (""))
  { title := ntitle.take 200
  , summary := (a.summary.getD ("")).take 500
  , source := source.take 100
  , url := orStr a.url (a.link.getD (""))
  , published_at := t
  , sentiment := sres.label.toLower
  , sentiment_score := sres.score
  , key_phrases := String.intercalate (", ") (phraseFn content)
  , source_reliability := get_source_reliability source
  , banner_image_url := a.banner_image_url
  , raw_data := a }

/-- The validation pipeline shared by both phases of _process_articles:
normalized title must be non-empty and the date must parse; on success it
yields the fingerprint together with the defaults.  Inside phase 2 the
per-article try catches a raising date parse, so there the raises case
degrades to a skip like the invalid one (inside phase 1 the raise aborts
the batch before this function would be consulted). -/
def classify (strParse : String → Option ℚ)
    (scorer : String → NewsUtils.SentimentResult)
    (phraseFn : String → List String) (a : RawArticle) :
    Option (String × ArticleFields) :=
  let ntitle := normalize_title (effectiveTitle a)
  if ntitle = ("") then none
  else
    match parse_date strParse a with
    | .ok t => some (content_fingerprint ntitle t, mkDefaults scorer phraseFn a ntitle t)
    | .invalid => none
    | .raises => none

/-- The dedup key of an article: fingerprint of normalized title and
minute-rounded publish time, none when the article is invalid (empty
title or unparsable date). -/
def article_key (strParse : String → Option ℚ) (a : RawArticle) :
    Option String :=
  let ntitle := normalize_title (effectiveTitle a)
  if ntitle = ("") then none
  else
    match parse_date strParse a with
    | .ok t => some (content_fingerprint ntitle t)
    | .invalid => none
    | .raises => none

/-- Phase 1 of _process_articles (lines 244-269): in-memory dedup by
fingerprint with a seen set; invalid articles and articles whose
fingerprint was already seen are dropped without affecting any count. -/
def phase1Aux (strParse : String → Option ℚ) :
    List RawArticle → List String → List RawArticle
  | [], _ => []
  | a :: rest, seen =>
    match article_key strParse a with
    | none => phase1Aux strParse rest seen
    | some k =>
      if k ∈ seen then phase1Aux strParse rest seen
      else a :: phase1Aux strParse rest (k :: seen)

/-- Phase 1 started with an empty seen set. -/
def phase1 (strParse : String → Option ℚ) (arts : List RawArticle) :
    List RawArticle :=
  phase1Aux strParse arts []

/-- The dedup keys of a list of articles (valid articles only). -/
def keysOf (strParse : String → Option ℚ) (arts : List RawArticle) :
    List String :=
  arts.filterMap (article_key strParse)

/-- Whether the phase-1 loop of _process_articles raises: it parses the
date of every article whose normalized title is non-empty outside any
try, so one integer timestamp out of datetime range under both readings
aborts the whole batch before any count or store write. -/
def phase1_raises (strParse : String → Option ℚ)
    (arts : List RawArticle) : Bool :=
  arts.any (fun a =>
    !decide (normalize_title (effectiveTitle a) = ("")) &&
      decide (parse_date strParse a = .raises))

/-- Result of _process_articles: the two counts and the updated store. -/
structure PRes where
  new : ℕ
  dup : ℕ
  db : DB
deriving DecidableEq, Repr

/-- Phase 2 of _process_articles (lines 271-327): re-validate each
deduplicated article, recompute its fingerprint, enrich it and upsert
at the write time `now`; created records count as new, updated ones as
duplicates.  The loop body sits in a try whose generic handler skips the
article, so a save that raises (ValidationError on a falsy symbol:
update_or_create none) is counted neither as new nor as duplicate. -/
def phase2 (strParse : String → Option ℚ)
    (scorer : String → NewsUtils.SentimentResult)
    (phraseFn : String → List String) (now : ℚ) (sym : String) :
    List RawArticle → DB → PRes
  | [], db => ⟨0, 0, db⟩
  | a :: rest, db =>
    match classify strParse scorer phraseFn a with
    | none => phase2 strParse scorer phraseFn now sym rest db
    | some (k, f) =>
      match update_or_create now db k sym f with
      | none => phase2 strParse scorer phraseFn now sym rest db
      | some step =>
        let r := phase2 strParse scorer phraseFn now sym rest step.2
        if step.1 then ⟨r.new + 1, r.dup, r.db⟩ else ⟨r.new, r.dup + 1, r.db⟩

/-- Outcome of _process_articles: the normal return, or an exception
escaping the unguarded phase-1 loop (it carries no counts and leaves the
store untouched). -/
inductive BatchOutcome where
  | raised
  | done (r : PRes)
deriving DecidableEq, Repr

/-- _process_articles of news/tasks.py (lines 233-327), run at write time
`now`.  A date parse raising during phase 1 propagates out of the
function; otherwise phase 2 processes the deduplicated survivors. -/
def process_articles (strParse : String → Option ℚ)
    (scorer : String → NewsUtils.SentimentResult)
    (phraseFn : String → List String) (now : ℚ) (sym : String)
    (arts : List RawArticle) (db : DB) : BatchOutcome :=
  if phase1_raises strParse arts then .raised
  else .done (phase2 strParse scorer phraseFn now sym (phase1 strParse arts) db)

/-- Result of one provider fetch attempt inside the fallback chain. -/
inductive ProviderResult where
  | ok (arts : List RawArticle)
  | rateLimited
  | httpError
  | otherError
deriving DecidableEq, Repr

/-- Outcome of the provider loop. -/
inductive SelectOutcome where
  | got (arts : List RawArticle)
  | exhausted
  | retryRateLimited
deriving DecidableEq, Repr

/-- The provider fallback chain of fetch_and_process_news (lines 188-208):
first successful non-empty fetch wins, HTTP 429 raises a task retry, any
other failure advances the chain. -/
def selectProvider : List ProviderResult → SelectOutcome
  | [] => .exhausted
  | .ok arts :: rest => if arts = [] then selectProvider rest else .got arts
  | .rateLimited :: _ => .retryRateLimited
  | .httpError :: rest => selectProvider rest
  | .otherError :: rest => selectProvider rest

/-- Whether _filter_recent_articles raises: it parses every article's
date outside any try, with no title check first. -/
def filter_raises (strParse : String → Option ℚ)
    (arts : List RawArticle) : Bool :=
  arts.any (fun a => decide (parse_date strParse a = .raises))

/-- _filter_recent_articles (lines 146-157): keep articles parsed to a
publish time within the last 24 hours (meaningful only when no date
parse raises, see filter_raises). -/
def filter_recent (strParse : String → Option ℚ) (now : ℚ)
    (arts : List RawArticle) : List RawArticle :=
  arts.filter (fun a =>
    match parse_date strParse a with
    | .ok t => decide (now - 86400 ≤ t)
    | .invalid => false
    | .raises => false)

/-- The cached-articles query of fetch_and_process_news (lines 172-176):
records for the symbol published within the last 24 hours, capped at
MAX_ARTICLES (the order_by only permutes the window, it does not change
the count). -/
def cached_articles (now : ℚ) (sym : String) (db : DB) : List DBRecord :=
  (db.filter (fun r =>
    r.symbol == sym && decide (now - 86400 ≤ r.flds.published_at))).take 100

/-- The task result dict of fetch_and_process_news.  criticalRetry is the
outer except branch (lines 226-230): an exception escaping the filter or
processing steps reaches self.retry with countdown 300 (returning the
failed dict once retries are exhausted). -/
inductive TaskResult where
  | success (symbol : String) (new_articles duplicates : ℕ)
  | error (message : String)
  | retryScheduled
  | criticalRetry
deriving DecidableEq, Repr

/-- fetch_and_process_news of news/tasks.py (lines 160-230): cache
short-circuit, provider fallback chain, optional recency filter, then
_process_articles.  The empty-articles check precedes the recency filter
in the source; a date parse raising inside the filter or inside phase 1
of _process_articles is caught only by the outer except, which schedules
a task retry and leaves the store untouched. -/
def fetch_and_process_news (strParse : String → Option ℚ)
    (scorer : String → NewsUtils.SentimentResult)
    (phraseFn : String → List String) (now : ℚ)
    (providers : List ProviderResult) (sym : String)
    (fetch_latest_only : Bool) (db : DB) : TaskResult × DB :=
  let cached := cached_articles now sym db
  if cached.length ≠ 0 then (.success sym 0 cached.length, db)
  else
    match selectProvider providers with
    | .retryRateLimited => (.retryScheduled, db)
    | .exhausted => (.error ("No articles found"), db)
    | .got arts =>
      if fetch_latest_only && filter_raises strParse arts then (.criticalRetry, db)
      else
        let arts2 := if fetch_latest_only then filter_recent strParse now arts else arts
        match process_articles strParse scorer phraseFn now sym arts2 db with
        | .raised => (.criticalRetry, db)
        | .done r => (.success sym r.new r.dup, r.db)

end NewsTasks

namespace OpinionSentiment

/-- TIER1_SOURCES of opinion_generator.py. -/
def tier1_sources : List String :=
  [ ("Bloomberg"), ("Reuters"), ("WSJ"), ("Financial Times"), ("CNBC")
  , ("Barron\x27s") ]

/-- An analyzed-news dict as consumed by
InstitutionalAnalysisEngine._analyze_sentiment.  published_at models the
datetime parsed by fromisoformat (none when the key is missing or the
parse raises); the other optional fields are none when the key is
missing.  The key_phrases merging is not modelled (it does not feed the
score). -/
structure NewsArticle where
  published_at : Option ℝ := none
  sentiment : Option String := none
  confidence : Option ℝ := none
  source_reliability : Option ℝ := none
  source : Option String := none

/-- The regime adjustment factor applied to the aggregated score. -/
noncomputable def regimeAdj : StockEngine.MarketRegime → ℝ
  | .bull => 11/10
  | .bear => 9/10
  | .neutral => 1

/-- The 2.0 source tier weight for TIER1 outlets, else 1.0 (a missing
source is not a member). -/
noncomputable def tierWeight (src : Option String) : ℝ :=
  if src.getD ("") ∈ tier1_sources then 2 else 1

/-- The sentiment-value mapping with the dict-get default 0.0. -/
noncomputable def sentimentValueOf (label : String) : ℝ :=
  if label = ("positive") then 1
  else if label = ("neutral") then 0
  else if label = ("negative") then -1
  else 0

/-- Whether a lowercased label is a key of the sentiment_counts dict; an
unknown label raises KeyError at the increment. -/
def labelKnown (label : String) : Bool :=
  label = ("positive") || label = ("neutral") || label = ("negative")

/-- The sentiment_distribution counters. -/
structure Counts where
  pos : ℕ
  neu : ℕ
  neg : ℕ
deriving DecidableEq, Repr

/-- Increment the counter of a known label. -/
def bumpCount (c : Counts) (label : String) : Counts :=
  if label = ("positive") then { c with pos := c.pos + 1 }
  else if label = ("neutral") then { c with neu := c.neu + 1 }
  else if label = ("negative") then { c with neg := c.neg + 1 }
  else c

/-- One iteration of the article loop of _analyze_sentiment
(opinion_generator.py lines 563-587).  The loop body is a try-block: a
missing/unparsable published_at, a missing sentiment, or a missing
confidence/source_reliability raises before the score is appended and the
article is skipped; an unknown sentiment label raises at the
sentiment_counts increment, after the score (with sentiment value 0.0)
was already appended, so that score survives while the counts do not
change. -/
noncomputable def step (now : ℝ) (st : List ℝ × Counts) (a : NewsArticle) : List ℝ × Counts :=
  match a.published_at with
  | none => st
  | some pub =>
    match a.sentiment with
    | none => st
    | some rawLabel =>
      match a.confidence, a.source_reliability with
      | some conf, some rel =>
        let hours_old := (now - pub) / 3600
        let recency := Real.exp (-hours_old / 24)
        let source_weight := tierWeight a.source
        let sentiment := rawLabel.toLower
        let weight := conf * (rel / 100) * recency * source_weight
        let scores := st.1 ++ [sentimentValueOf sentiment * weight]
        if labelKnown sentiment then (scores, bumpCount st.2 sentiment)
        else (scores, st.2)
      | _, _ => st

/-- np.clip to the interval from -1 to 1. -/
noncomputable def clip1 (x : ℝ) : ℝ := max (-1) (min 1 x)

/-- InstitutionalAnalysisEngine._analyze_sentiment
(opinion_generator.py lines 549-603), score path: the mean of the
accumulated scores (0.0 when the list is empty), multiplied by the regime
adjustment and clipped once by np.clip.  The empty article list returns
score 0.0 immediately. -/
noncomputable def analyze_sentiment_score (now : ℝ) (articles : List NewsArticle)
    (regime : StockEngine.MarketRegime) : ℝ :=
  if articles.isEmpty then 0
  else
    let st := articles.foldl (step now) ([], ⟨0, 0, 0⟩)
    let scores := st.1
    let avg := if scores.isEmpty then 0 else scores.sum / (scores.length : ℝ)
    clip1 (avg * regimeAdj regime)

/-- The per-article contribution named by the spec: sentiment value times
confidence times reliability over 100 times recency exp(-hours/24) times
source tier weight. -/
noncomputable def article_contribution (now : ℝ) (a : NewsArticle) : ℝ :=
  sentimentValueOf ((a.sentiment.getD ("")).toLower) * (a.confidence.getD 0) *
    ((a.source_reliability.getD 0) / 100) *
    Real.exp (-((now - a.published_at.getD 0) / 3600) / 24) *
    tierWeight a.source

/-- Modelled from the spec wording of claim C5: the mean of the
contributions, first clipped to the interval, then multiplied by the
regime adjustment, then re-clipped. -/
noncomputable def spec_sentiment_aggregate (now : ℝ) (articles : List NewsArticle)
    (regime : StockEngine.MarketRegime) : ℝ :=
  let avg := (articles.map (article_contribution now)).sum / (articles.length : ℝ)
  clip1 (clip1 avg * regimeAdj regime)

/-- The single-clip aggregate the code actually computes, stated over the
spec-style contribution formula (the amended form of claim C5). -/
noncomputable def single_clip_aggregate (now : ℝ) (articles : List NewsArticle)
    (regime : StockEngine.MarketRegime) : ℝ :=
  let avg := (articles.map (article_contribution now)).sum / (articles.length : ℝ)
  clip1 (avg * regimeAdj regime)

/-- An article is valid when every field the loop reads is present and
the lowercased label is one of the three known labels. -/
def validArticle (a : NewsArticle) : Bool :=
  a.published_at.isSome && a.sentiment.isSome && a.confidence.isSome &&
    a.source_reliability.isSome && labelKnown ((a.sentiment.getD ("")).toLower)

/-- A fully weighted tier-1 article published exactly at the analysis
time: contribution 1.0 x 1.0 x (100/100) x exp(0) x 2.0 = 2. -/
noncomputable def bearCaseArticle : NewsArticle :=
  { published_at := some 0
  , sentiment := some ("positive")
  , confidence := some 1
  , source_reliability := some 100
  , source := some ("Bloomberg") }

end OpinionSentiment

namespace StockEngine

/-- The TechnicalSnapshot of the claim C7 scenario: price 105, SMA50 100,
SMA200 95, bull regime. -/
def scenarioMetrics : TechnicalMetrics :=
  { sma_50 := 100
  , sma_200 := 95
  , rsi := 55
  , current_price := 105
  , volatility := 1/5
  , confidence := 75
  , macd := none
  , macd_signal := none
  , obv := none
  , adx := none
  , percentile_sector := 50
  , percentile_market := 50
  , market_regime := { regime := MarketRegime.bull, confidence := 80 } }

/-- The overbought snapshot of claim C9: RSI 80 with otherwise healthy
technicals. -/
def overboughtMetrics : TechnicalMetrics := { scenarioMetrics with rsi := 80 }

/-- The oversold snapshot of claim C9: RSI 20. -/
def oversoldMetrics : TechnicalMetrics := { scenarioMetrics with rsi := 20 }

end StockEngine

namespace NewsTasks

/-- Validity of an article relative to a store: it has a dedup key and no
record is stored yet under that key for the symbol. -/
def fresh_valid (strParse : String → Option ℚ) (db : DB) (sym : String)
    (a : RawArticle) : Bool :=
  match article_key strParse a with
  | some k => !(keyMem db k sym)
  | none => false

/-- Fields of the single pre-existing record used by the claim C1
counterexample. -/
def sampleFields : ArticleFields :=
  { title := ("ibm reports strong earnings")
  , summary := ("")
  , source := ("Reuters")
  , url := ("")
  , published_at := 0
  , sentiment := ("neutral")
  , sentiment_score := 0
  , key_phrases := ("")
  , source_reliability := 85
  , banner_image_url := ("")
  , raw_data := {} }

/-- A store holding exactly one article for IBM published at time 0. -/
def c1db : DB := [⟨("cachedhash"), ("IBM"), sampleFields, 0, 0⟩]

/-- A provider article (Alpha Vantage shape: title and time_published in
epoch milliseconds) used in concrete evaluations. -/
def cArticle : RawArticle :=
  { title := some ("IBM Reports Strong Earnings")
  , summary := some ("Strong quarter for IBM.")
  , source := some ("Reuters")
  , url := some ("https://example.com/ibm")
  , time_published := some (.ival 1700000000000) }

/-- A trivial scorer standing for analyze_sentiment with the model
unavailable (always neutral). -/
def neutralScorer : String → NewsUtils.SentimentResult :=
  fun _ => { label := ("neutral"), score := 0 }

/-- A trivial key-phrase extractor. -/
def noPhrases : String → List String := fun _ => []

/-- A string-date parser that always fails (every concrete article here
uses integer epochs). -/
def noStrParse : String → Option ℚ := fun _ => none

end NewsTasks

namespace StockEngine

/-- A snapshot whose current price equals SMA200 times 0.95 exactly, the
degenerate input of claim C10. -/
def degenerateMetrics : TechnicalMetrics := { scenarioMetrics with current_price := 361/4 }

end StockEngine

namespace NewsUtils

/-- A model stub that always returns a confident positive result (used to
show that degradation does not depend on the model output). -/
def someModel : String → Option SentimentResult :=
  fun _ => some { label := ("POSITIVE"), score := 9/10 }

end NewsUtils

open StockEngine in
/-- Claim C6, amended.  TechnicalAnalyzer.analyze is total (never
throws); on data-fetch failure, an empty frame, or a computation failure
it returns the degraded snapshot whose SMA50, SMA200, current price and
volatility are zero, whose RSI is 50 (not 0), whose technical confidence
is 0 (not 50), and whose market regime is neutral with regime confidence
50. -/
theorem technical_analyzer_degrades_to_neutral_snapshot :
    (∀ compute, analyze none compute = fallbackMetrics) ∧
    (∀ compute, analyze (some []) compute = fallbackMetrics) ∧
    (∀ data compute, compute data = none → analyze (some data) compute = fallbackMetrics) ∧
    fallbackMetrics.sma_50 = 0 ∧ fallbackMetrics.sma_200 = 0 ∧
    fallbackMetrics.current_price = 0 ∧ fallbackMetrics.volatility = 0 ∧
    fallbackMetrics.rsi = 50 ∧ fallbackMetrics.confidence = 0 ∧
    fallbackMetrics.market_regime = ⟨MarketRegime.neutral, 50⟩ := by
  refine ⟨fun _ => rfl, fun _ => rfl, ?_, rfl, rfl, rfl, rfl, rfl, rfl, rfl⟩
  intro data compute h
  by_cases hd : data = []
  · simp [analyze, hd]
  · simp [analyze, hd, h]

/-- Witness for the hypothesis of the compute-failure branch of claim C6. -/
theorem technical_analyzer_degrades_to_neutral_snapshot_witness :
    StockEngine.analyze (some [1]) (fun _ => none) = StockEngine.fallbackMetrics :=
  technical_analyzer_degrades_to_neutral_snapshot.2.2.1 [1] (fun _ => none) rfl

open StockEngine in
/-- Claim C6 as stated is false: the degraded snapshot returned on
data-fetch failure does not carry confidence 50 (the snapshot confidence
is 0; only the regime confidence is 50), and its indicators are not all
zeroed (the RSI is 50). -/
theorem technical_analyzer_counterexample :
    (analyze none (fun _ => none)).confidence ≠ 50 ∧
    (analyze none (fun _ => none)).rsi ≠ 0 := by decide

open StockEngine in
/-- Claim C7.  With no language-model advisory, the fallback decides BUY
when sentiment exceeds 0.3 and price is above SMA200, SELL in the
symmetric case, HOLD otherwise; and on the scenario snapshot (price 105,
SMA50 100, SMA200 95) with aggregate sentiment 0.5 the action normalises
to buy with stop_loss 95 x 0.95 = 90.25 and take_profit 100 x 1.05 =
105.0. -/
theorem fallback_action_thresholds :
    (∀ t : TechnicalMetrics, ∀ s : ℚ, 3/10 < s → t.sma_200 < t.current_price →
      fallback_recommendation t s = ("BUY")) ∧
    (∀ t : TechnicalMetrics, ∀ s : ℚ, s < -(3/10) → t.current_price < t.sma_200 →
      fallback_recommendation t s = ("SELL")) ∧
    (∀ t : TechnicalMetrics, ∀ s : ℚ,
      ¬(3/10 < s ∧ t.sma_200 < t.current_price) →
      ¬(s < -(3/10) ∧ t.current_price < t.sma_200) →
      fallback_recommendation t s = ("HOLD")) ∧
    ((generate_fallback_opinion scenarioMetrics (1/2)).recommendation = ("BUY") ∧
     normalize_recommendation ("BUY") = (("buy"), 75) ∧
     calculate_risk_metrics scenarioMetrics =
       some { stop_loss := 361/4, take_profit := 105, risk_reward_ratio := 0 } ∧
     (361 : ℚ)/4 = 95 * (95/100) ∧ (105 : ℚ) = 100 * (105/100)) := by
  refine ⟨?_, ?_, ?_, of_decide_eq_true (by with_unfolding_all rfl),
    of_decide_eq_true (by with_unfolding_all rfl), of_decide_eq_true (by with_unfolding_all rfl),
    by norm_num, by norm_num⟩
  · intro t s h1 h2
    unfold fallback_recommendation
    rw [if_pos ⟨h1, h2⟩]
  · intro t s h1 h2
    unfold fallback_recommendation
    rw [if_neg (fun hc => absurd h1 (not_lt.mpr (le_of_lt (lt_trans (by norm_num) hc.1)))),
      if_pos ⟨h1, h2⟩]
  · intro t s h1 h2
    unfold fallback_recommendation
    rw [if_neg h1, if_neg h2]

/-- Witness exercising each hypothesis of claim C7. -/
theorem fallback_action_thresholds_witness :
    StockEngine.fallback_recommendation StockEngine.scenarioMetrics (1/2) = ("BUY") ∧
    StockEngine.fallback_recommendation
      { StockEngine.scenarioMetrics with current_price := 90 } (-(1/2)) = ("SELL") ∧
    StockEngine.fallback_recommendation StockEngine.scenarioMetrics (-(1/2)) = ("HOLD") :=
  ⟨fallback_action_thresholds.1 StockEngine.scenarioMetrics (1/2) (by norm_num)
     (of_decide_eq_true (by with_unfolding_all rfl)),
   fallback_action_thresholds.2.1 _ (-(1/2)) (by norm_num)
     (of_decide_eq_true (by with_unfolding_all rfl)),
   fallback_action_thresholds.2.2.1 StockEngine.scenarioMetrics (-(1/2))
     (of_decide_eq_true (by with_unfolding_all rfl)) (of_decide_eq_true (by with_unfolding_all rfl))⟩

open StockEngine in
/-- Claim C9.  No contrarian warning exists in the code: the risks list
of the produced response is built only from the volatility and sentiment
thresholds of the fallback (or from the advisory), never from RSI.  On an
overbought snapshot (RSI 80) with positive aggregate sentiment 0.5 the
full-analysis risks are exactly the two fallback strings, identical to
the risks at RSI 50, and the symmetric oversold case carries no warning
either. -/
theorem no_contrarian_warning_emitted :
    (generate_fallback_opinion overboughtMetrics (1/2)).risks =
      [("Moderate volatility"), ("Neutral sentiment")] ∧
    (generate_fallback_opinion oversoldMetrics (-(1/2))).risks =
      [("Moderate volatility"), ("Negative sentiment")] ∧
    (generate_fallback_opinion overboughtMetrics (1/2)).risks =
      (generate_fallback_opinion { overboughtMetrics with rsi := 50 } (1/2)).risks ∧
    (full_analysis overboughtMetrics (1/2) 50 50 none).risksOf =
      [("Moderate volatility"), ("Neutral sentiment")] :=
  of_decide_eq_true (by with_unfolding_all rfl)

open StockEngine in
/-- Claim C10.  risk_reward_ratio divides by price minus stop loss with
no guard: whenever current price differs from SMA200 x 0.95 the metrics
are exactly stop_loss = SMA200 x 0.95, take_profit = SMA50 x 1.05 and
risk_reward_ratio their quotient; at current price = SMA200 x 0.95 the
division raises (none) and full_analysis resolves to an error-shaped
response. -/
theorem risk_reward_division_guard :
    (∀ t : TechnicalMetrics, t.current_price ≠ t.sma_200 * (95/100) →
      calculate_risk_metrics t = some
        { stop_loss := t.sma_200 * (95/100)
        , take_profit := t.sma_50 * (105/100)
        , risk_reward_ratio :=
            (t.sma_50 * (105/100) - t.current_price) /
              (t.current_price - t.sma_200 * (95/100)) }) ∧
    (∀ t : TechnicalMetrics, t.current_price = t.sma_200 * (95/100) →
      calculate_risk_metrics t = none) ∧
    (∀ t : TechnicalMetrics, ∀ s sc nr : ℚ, ∀ llm : Option LLMResponse,
      t.current_price = t.sma_200 * (95/100) →
      ∃ msg, full_analysis t s sc nr llm = .err msg) := by
  have hz : ∀ t : TechnicalMetrics, t.current_price = t.sma_200 * (95/100) →
      calculate_risk_metrics t = none := by
    intro t h
    have h' : t.current_price - t.sma_200 * (95/100) = 0 := by rw [h]; exact sub_self _
    simp [calculate_risk_metrics, h']
  refine ⟨?_, hz, ?_⟩
  · intro t h
    have h' : t.current_price - t.sma_200 * (95/100) ≠ 0 := sub_ne_zero_of_ne h
    simp [calculate_risk_metrics, h']
  · intro t s sc nr llm h
    by_cases hp : t.current_price = 0
    · exact ⟨("Technical analysis failed"), by simp [full_analysis, hp]⟩
    · exact ⟨("float division by zero"), by simp [full_analysis, hp, format_response, hz t h]⟩

/-- Witness exercising both sides of the claim C10 guard. -/
theorem risk_reward_division_guard_witness :
    StockEngine.calculate_risk_metrics StockEngine.scenarioMetrics = some
      { stop_loss := StockEngine.scenarioMetrics.sma_200 * (95/100)
      , take_profit := StockEngine.scenarioMetrics.sma_50 * (105/100)
      , risk_reward_ratio :=
          (StockEngine.scenarioMetrics.sma_50 * (105/100) -
            StockEngine.scenarioMetrics.current_price) /
            (StockEngine.scenarioMetrics.current_price -
              StockEngine.scenarioMetrics.sma_200 * (95/100)) } ∧
    StockEngine.calculate_risk_metrics StockEngine.degenerateMetrics = none ∧
    (∃ msg, StockEngine.full_analysis StockEngine.degenerateMetrics (1/2) 50 50 none =
      .err msg) :=
  ⟨risk_reward_division_guard.1 StockEngine.scenarioMetrics
     (by norm_num [StockEngine.scenarioMetrics]),
   risk_reward_division_guard.2.1 StockEngine.degenerateMetrics
     (of_decide_eq_true (by with_unfolding_all rfl)),
   risk_reward_division_guard.2.2 StockEngine.degenerateMetrics (1/2) 50 50 none
     (of_decide_eq_true (by with_unfolding_all rfl))⟩

/-- Claim C8, amended.  analyze_sentiment degrades to neutral with score
0.0 whenever the model is unavailable or the stripped text is shorter
than the configured minimum length, which is 25 (settings.FINBERT_CONFIG
overrides the DEFAULT_CONFIG value 20); empty or whitespace text is a
special case of the length rule; Score of the 14-character text market
rallies with the model unavailable is neutral 0.0. -/
theorem sentiment_scorer_degradation :
    (∀ model text, NewsUtils.analyze_sentiment false model text = NewsUtils.neutral_result) ∧
    (∀ avail model text, text.trim.length < 25 →
      NewsUtils.analyze_sentiment avail model text = NewsUtils.neutral_result) ∧
    (∀ avail model text, text.trim = ("") →
      NewsUtils.analyze_sentiment avail model text = NewsUtils.neutral_result) ∧
    NewsUtils.config_min_text_length = 25 ∧
    (∀ model, NewsUtils.analyze_sentiment false model ("market rallies") =
      NewsUtils.neutral_result) := by
  have h2 : ∀ avail model text, text.trim.length < 25 →
      NewsUtils.analyze_sentiment avail model text = NewsUtils.neutral_result := by
    intro avail model text h
    cases avail
    · rfl
    · simp [NewsUtils.analyze_sentiment, NewsUtils.config_min_text_length,
        NewsUtils.settings_min_text_length, h]
  exact ⟨fun _ _ => rfl, h2,
    fun avail model text h => h2 avail model text (by rw [h]; decide),
    rfl, fun _ => rfl⟩

/-- Witness exercising the degradation hypotheses of claim C8. -/
theorem sentiment_scorer_degradation_witness :
    NewsUtils.analyze_sentiment false NewsUtils.someModel ("market rallies") =
      NewsUtils.neutral_result ∧
    NewsUtils.analyze_sentiment true NewsUtils.someModel ("short text") =
      NewsUtils.neutral_result ∧
    NewsUtils.analyze_sentiment true NewsUtils.someModel ("   ") =
      NewsUtils.neutral_result :=
  ⟨sentiment_scorer_degradation.2.2.2.2 NewsUtils.someModel,
   sentiment_scorer_degradation.2.1 true NewsUtils.someModel ("short text")
     (of_decide_eq_true (by with_unfolding_all rfl)),
   sentiment_scorer_degradation.2.2.1 true NewsUtils.someModel ("   ")
     (of_decide_eq_true (by with_unfolding_all rfl))⟩

/-- Claim C8 as stated is false in its threshold: the merged
configuration sets min_text_length to 25, not 20, and a 24-character text
(not shorter than 20) still degrades to neutral even with a loaded model
returning a positive result. -/
theorem sentiment_scorer_counterexample :
    NewsUtils.config_min_text_length ≠ 20 ∧
    ¬(("this text is 24 chars ok").trim.length < 20) ∧
    NewsUtils.analyze_sentiment true NewsUtils.someModel ("this text is 24 chars ok") =
      NewsUtils.neutral_result :=
  of_decide_eq_true (by with_unfolding_all rfl)

/-- Every 32-bit word produced by w32 is below the modulus. -/
theorem sha256_w32_lt (n : ℕ) : SHA256.w32 n < SHA256.B32 :=
  Nat.mod_lt _ (by norm_num [SHA256.B32])

/-- The packed digest is below 2 to the 256. -/
theorem sha256_digestNat_lt (h : SHA256.Hash8) : SHA256.digestNat h < 2 ^ 256 := by
  have step : ∀ x y M : ℕ, x < M → y < SHA256.B32 →
      x * SHA256.B32 + y < M * SHA256.B32 := by
    intro x y M hx hy
    have h1 : x * SHA256.B32 + y < (x + 1) * SHA256.B32 := by
      calc x * SHA256.B32 + y < x * SHA256.B32 + SHA256.B32 := by omega
        _ = (x + 1) * SHA256.B32 := by ring
    exact lt_of_lt_of_le h1 (Nat.mul_le_mul_right _ hx)
  have b1 := sha256_w32_lt h.h0
  have b2 := step _ _ _ b1 (sha256_w32_lt h.h1)
  have b3 := step _ _ _ b2 (sha256_w32_lt h.h2)
  have b4 := step _ _ _ b3 (sha256_w32_lt h.h3)
  have b5 := step _ _ _ b4 (sha256_w32_lt h.h4)
  have b6 := step _ _ _ b5 (sha256_w32_lt h.h5)
  have b7 := step _ _ _ b6 (sha256_w32_lt h.h6)
  have b8 := step _ _ _ b7 (sha256_w32_lt h.h7)
  have hfin : SHA256.B32 * SHA256.B32 * SHA256.B32 * SHA256.B32 * SHA256.B32 *
      SHA256.B32 * SHA256.B32 * SHA256.B32 = 2 ^ 256 := by norm_num [SHA256.B32]
  exact hfin ▸ b8

/-- Any SHA-256 digest value is below 2 to the 256. -/
theorem sha256Nat_lt (msg : List ℕ) : SHA256.sha256Nat msg < 2 ^ 256 :=
  sha256_digestNat_lt _

/-- Python round lands within one half of its argument. -/
theorem pyRound_near (q : ℚ) : |(NewsTasks.pyRound q : ℚ) - q| ≤ 1/2 := by
  have h0 : (⌊q⌋ : ℚ) ≤ q := Int.floor_le q
  have h1 : q < ⌊q⌋ + 1 := Int.lt_floor_add_one q
  simp only [NewsTasks.pyRound]
  split_ifs with ha hb hc <;> rw [abs_le] <;> constructor <;> push_cast <;> linarith

/-- Timestamps more than sixty seconds apart fall into different minute
buckets. -/
theorem minuteBucket_separated (t1 t2 : ℚ) (h : 60 < |t1 - t2|) :
    NewsTasks.minuteBucket t1 ≠ NewsTasks.minuteBucket t2 := by
  intro he
  have h1 := pyRound_near (t1 / 60)
  have h2 := pyRound_near (t2 / 60)
  simp only [NewsTasks.minuteBucket] at he
  rw [he] at h1
  have htri : |t1 / 60 - t2 / 60| ≤ 1 := by
    calc |t1 / 60 - t2 / 60|
        = |(t1 / 60 - (NewsTasks.pyRound (t2 / 60) : ℚ)) +
            ((NewsTasks.pyRound (t2 / 60) : ℚ) - t2 / 60)| := by ring_nf
      _ ≤ |t1 / 60 - (NewsTasks.pyRound (t2 / 60) : ℚ)| +
            |(NewsTasks.pyRound (t2 / 60) : ℚ) - t2 / 60| := abs_add _ _
      _ ≤ 1/2 + 1/2 := add_le_add (by rw [abs_sub_comm]; exact h1) h2
      _ = 1 := by norm_num
  have hkey : t1 - t2 = 60 * (t1 / 60 - t2 / 60) := by ring
  rw [hkey, abs_mul, abs_of_pos (by norm_num : (0:ℚ) < 60)] at h
  linarith

open NewsTasks in
/-- Equal minute buckets give equal fingerprints: the hashed preimages
coincide. -/
theorem fingerprint_bucket_eq (ntitle : String) (t1 t2 : ℚ)
    (h : minuteBucket t1 = minuteBucket t2) :
    content_fingerprint ntitle t1 = content_fingerprint ntitle t2 := by
  unfold content_fingerprint uniqueString
  rw [h]

open NewsTasks in
/-- Claim C1, amended.  When at least one persisted article for the
symbol was published within the last 24 hours, fetch_and_process_news
returns immediately with status success, new_articles 0 and duplicates
equal to the number of cached articles (capped at 100), leaving the store
untouched and independent of every provider. -/
theorem cache_short_circuit (strParse : String → Option ℚ)
    (scorer : String → NewsUtils.SentimentResult) (phraseFn : String → List String)
    (now : ℚ) (providers : List ProviderResult) (sym : String)
    (flag : Bool) (db : DB) (h : cached_articles now sym db ≠ []) :
    fetch_and_process_news strParse scorer phraseFn now providers sym flag db =
      (.success sym 0 (cached_articles now sym db).length, db) := by
  have hlen : (cached_articles now sym db).length ≠ 0 :=
    fun hz => h (List.length_eq_zero.mp hz)
  simp only [fetch_and_process_news]
  rw [if_pos hlen]

/-- Witness of claim C1 at the concrete one-record store. -/
theorem cache_short_circuit_witness :
    NewsTasks.cached_articles 0 ("IBM") NewsTasks.c1db ≠ [] ∧
    NewsTasks.fetch_and_process_news NewsTasks.noStrParse NewsTasks.neutralScorer
      NewsTasks.noPhrases 0 [] ("IBM") true NewsTasks.c1db =
      (.success ("IBM") 0 (NewsTasks.cached_articles 0 ("IBM") NewsTasks.c1db).length,
        NewsTasks.c1db) :=
  ⟨of_decide_eq_true (by with_unfolding_all rfl),
   cache_short_circuit NewsTasks.noStrParse NewsTasks.neutralScorer NewsTasks.noPhrases
     0 [] ("IBM") true NewsTasks.c1db (of_decide_eq_true (by with_unfolding_all rfl))⟩

/-- Claim C1 as stated is false: with one cached article the returned
duplicate count is 1 (the number of cached articles), not 0. -/
theorem cache_short_circuit_counterexample :
    (NewsTasks.fetch_and_process_news NewsTasks.noStrParse NewsTasks.neutralScorer
      NewsTasks.noPhrases 0 [] ("IBM") true NewsTasks.c1db).1 =
      .success ("IBM") 0 1 ∧
    (NewsTasks.fetch_and_process_news NewsTasks.noStrParse NewsTasks.neutralScorer
      NewsTasks.noPhrases 0 [] ("IBM") true NewsTasks.c1db).1 ≠
      .success ("IBM") 0 0 :=
  of_decide_eq_true (by with_unfolding_all rfl)

open NewsTasks in
/-- The dedup key equals the first component of the classification. -/
theorem article_key_classify (strParse : String → Option ℚ)
    (scorer : String → NewsUtils.SentimentResult) (phraseFn : String → List String)
    (a : RawArticle) :
    article_key strParse a = (classify strParse scorer phraseFn a).map Prod.fst := by
  unfold article_key classify
  by_cases h : normalize_title (effectiveTitle a) = ("")
  · simp [h]
  · cases hp : parse_date strParse a <;> simp [h, hp]

open NewsTasks in
/-- Every phase-1 survivor has a dedup key. -/
theorem phase1Aux_valid (strParse : String → Option ℚ) :
    ∀ arts seen (a : RawArticle), a ∈ phase1Aux strParse arts seen →
      (article_key strParse a).isSome := by
  intro arts
  induction arts with
  | nil => intro seen a ha; simp [phase1Aux] at ha
  | cons b rest ih =>
    intro seen a ha
    cases hk : article_key strParse b with
    | none =>
      simp only [phase1Aux, hk] at ha
      exact ih seen a ha
    | some k =>
      simp only [phase1Aux, hk] at ha
      by_cases hs : k ∈ seen
      · rw [if_pos hs] at ha
        exact ih seen a ha
      · rw [if_neg hs] at ha
        rcases List.mem_cons.mp ha with rfl | ha2
        · simp [hk]
        · exact ih (k :: seen) a ha2

open NewsTasks in
/-- Phase-1 keys are fresh relative to the seen set and pairwise
distinct. -/
theorem phase1Aux_keys_fresh (strParse : String → Option ℚ) :
    ∀ arts seen,
      (∀ k ∈ keysOf strParse (phase1Aux strParse arts seen), k ∉ seen) ∧
      (keysOf strParse (phase1Aux strParse arts seen)).Nodup := by
  intro arts
  induction arts with
  | nil => intro seen; simp [phase1Aux, keysOf]
  | cons b rest ih =>
    intro seen
    cases hk : article_key strParse b with
    | none => simpa [phase1Aux, hk] using ih seen
    | some k =>
      by_cases hs : k ∈ seen
      · simpa [phase1Aux, hk, hs] using ih seen
      · have ih2 := ih (k :: seen)
        have hkeys : keysOf strParse (phase1Aux strParse (b :: rest) seen) =
            k :: keysOf strParse (phase1Aux strParse rest (k :: seen)) := by
          simp [phase1Aux, hk, hs, keysOf, List.filterMap_cons]
        rw [hkeys]
        constructor
        · intro k2 hk2
          rcases List.mem_cons.mp hk2 with rfl | hk2r
          · exact hs
          · intro hcontra
            exact ih2.1 k2 hk2r (List.mem_cons_of_mem _ hcontra)
        · refine List.nodup_cons.mpr ⟨?_, ih2.2⟩
          intro hcontra
          exact ih2.1 k hcontra (List.mem_cons_self _ _)

open NewsTasks in
/-- Every key occurring among the input articles survives into the seen
set or the phase-1 output. -/
theorem phase1Aux_covers (strParse : String → Option ℚ) :
    ∀ arts seen (k : String), (∃ a ∈ arts, article_key strParse a = some k) →
      k ∈ seen ∨ k ∈ keysOf strParse (phase1Aux strParse arts seen) := by
  intro arts
  induction arts with
  | nil =>
    rintro seen k ⟨a, ha, _⟩
    simp at ha
  | cons b rest ih =>
    rintro seen k ⟨a, ha, hak⟩
    rcases List.mem_cons.mp ha with rfl | har
    · by_cases hs : k ∈ seen
      · exact Or.inl hs
      · right
        simp [phase1Aux, hak, hs, keysOf, List.filterMap_cons]
    · cases hk : article_key strParse b with
      | none =>
        simp only [phase1Aux, hk]
        exact ih seen k ⟨a, har, hak⟩
      | some kb =>
        by_cases hs : kb ∈ seen
        · simp only [phase1Aux, hk, if_pos hs]
          exact ih seen k ⟨a, har, hak⟩
        · rcases ih (kb :: seen) k ⟨a, har, hak⟩ with h1 | h2
          · rcases List.mem_cons.mp h1 with rfl | h1'
            · right
              simp [phase1Aux, hk, hs, keysOf, List.filterMap_cons]
            · exact Or.inl h1'
          · right
            simp only [phase1Aux, hk, if_neg hs]
            simp only [keysOf, List.filterMap_cons, hk]
            exact List.mem_cons_of_mem _ (by simpa [keysOf] using h2)

open NewsTasks in
/-- Each phase-2 article is classified exactly once: new plus duplicate
counts total the processed list length. -/
theorem phase2_count_total (strParse : String → Option ℚ)
    (scorer : String → NewsUtils.SentimentResult) (phraseFn : String → List String)
    (now : ℚ) (sym : String) (hsym : sym ≠ ("")) :
    ∀ (D : List RawArticle) (db : DB),
      (∀ a ∈ D, (classify strParse scorer phraseFn a).isSome) →
      (phase2 strParse scorer phraseFn now sym D db).new +
        (phase2 strParse scorer phraseFn now sym D db).dup = D.length := by
  intro D
  induction D with
  | nil => intro db _; simp [phase2]
  | cons a rest ih =>
    intro db hall
    have ha := hall a (List.mem_cons_self _ _)
    cases hc : classify strParse scorer phraseFn a with
    | none => rw [hc] at ha; simp at ha
    | some kf =>
      obtain ⟨k, f⟩ := kf
      have ihr := ih (upsert now db k sym f).2
        (fun b hb => hall b (List.mem_cons_of_mem _ hb))
      cases hstep : (upsert now db k sym f).1 <;>
        simp [phase2, hc, update_or_create, hsym, hstep] <;> omega

open NewsTasks in
/-- Claim C3, amended.  For a truthy symbol and a batch no article of
which aborts phase 1, an article whose fingerprint equals that of an
earlier article in the same batch is dropped by the in-memory phase-1
dedup and is counted neither as new nor as duplicate: the run returns
normally and the two returned counts total exactly the number of phase-1
survivors, whose fingerprints are pairwise distinct, while every valid
fingerprint of the batch is still represented by its first occurrence.
Only an article hitting an already persisted record counts as a
duplicate. -/
theorem in_batch_duplicates_uncounted (strParse : String → Option ℚ)
    (scorer : String → NewsUtils.SentimentResult) (phraseFn : String → List String)
    (now : ℚ) (sym : String) (arts : List RawArticle) (db : DB)
    (hsym : sym ≠ (""))
    (hnr : phase1_raises strParse arts = false) :
    process_articles strParse scorer phraseFn now sym arts db =
      .done (phase2 strParse scorer phraseFn now sym (phase1 strParse arts) db) ∧
    (phase2 strParse scorer phraseFn now sym (phase1 strParse arts) db).new +
      (phase2 strParse scorer phraseFn now sym (phase1 strParse arts) db).dup =
      (phase1 strParse arts).length ∧
    (keysOf strParse (phase1 strParse arts)).Nodup ∧
    (∀ a ∈ arts, ∀ k : String, article_key strParse a = some k →
      k ∈ keysOf strParse (phase1 strParse arts)) := by
  refine ⟨?_, ?_, ?_, ?_⟩
  · simp [process_articles, hnr]
  · apply phase2_count_total strParse scorer phraseFn now sym hsym
    intro a ha
    have hv := phase1Aux_valid strParse arts [] a (by simpa [phase1] using ha)
    rw [article_key_classify strParse scorer phraseFn] at hv
    cases hc : classify strParse scorer phraseFn a
    · rw [hc] at hv; simp at hv
    · simp
  · simpa [phase1] using (phase1Aux_keys_fresh strParse arts []).2
  · intro a ha k hk
    rcases phase1Aux_covers strParse arts [] k ⟨a, ha, hk⟩ with h1 | h2
    · simp at h1
    · simpa [phase1] using h2

/-- Witness running claim C3 on a concrete two-element batch over a
truthy symbol. -/
theorem in_batch_duplicates_uncounted_witness :
    (("IBM") : String) ≠ ("") ∧
    NewsTasks.phase1_raises NewsTasks.noStrParse
      [NewsTasks.cArticle, NewsTasks.cArticle] = false ∧
    (NewsTasks.phase2 NewsTasks.noStrParse NewsTasks.neutralScorer
      NewsTasks.noPhrases 0 ("IBM") (NewsTasks.phase1 NewsTasks.noStrParse
        [NewsTasks.cArticle, NewsTasks.cArticle]) []).new +
      (NewsTasks.phase2 NewsTasks.noStrParse NewsTasks.neutralScorer
        NewsTasks.noPhrases 0 ("IBM") (NewsTasks.phase1 NewsTasks.noStrParse
          [NewsTasks.cArticle, NewsTasks.cArticle]) []).dup = 1 ∧
    (NewsTasks.keysOf NewsTasks.noStrParse (NewsTasks.phase1 NewsTasks.noStrParse
      [NewsTasks.cArticle, NewsTasks.cArticle])).Nodup :=
  have hs : (("IBM") : String) ≠ ("") := of_decide_eq_true (by with_unfolding_all rfl)
  have hnr : NewsTasks.phase1_raises NewsTasks.noStrParse
      [NewsTasks.cArticle, NewsTasks.cArticle] = false :=
    of_decide_eq_true (by with_unfolding_all rfl)
  ⟨hs, hnr,
    (in_batch_duplicates_uncounted NewsTasks.noStrParse NewsTasks.neutralScorer
      NewsTasks.noPhrases 0 ("IBM") [NewsTasks.cArticle, NewsTasks.cArticle] []
      hs hnr).2.1.trans (of_decide_eq_true (by with_unfolding_all rfl)),
    (in_batch_duplicates_uncounted NewsTasks.noStrParse NewsTasks.neutralScorer
      NewsTasks.noPhrases 0 ("IBM") [NewsTasks.cArticle, NewsTasks.cArticle] []
      hs hnr).2.2.1⟩

/-- Claim C3 as stated is false: a batch holding the same article twice
over an empty store returns normally with new 1 and duplicates 0; the
second occurrence (equal fingerprint) was counted neither as duplicate
nor as new. -/
theorem in_batch_duplicate_counterexample :
    NewsTasks.process_articles NewsTasks.noStrParse NewsTasks.neutralScorer
      NewsTasks.noPhrases 0 ("IBM") [NewsTasks.cArticle, NewsTasks.cArticle] [] =
      .done (NewsTasks.phase2 NewsTasks.noStrParse NewsTasks.neutralScorer
        NewsTasks.noPhrases 0 ("IBM") (NewsTasks.phase1 NewsTasks.noStrParse
          [NewsTasks.cArticle, NewsTasks.cArticle]) []) ∧
    (NewsTasks.phase2 NewsTasks.noStrParse NewsTasks.neutralScorer
      NewsTasks.noPhrases 0 ("IBM") (NewsTasks.phase1 NewsTasks.noStrParse
        [NewsTasks.cArticle, NewsTasks.cArticle]) []).new = 1 ∧
    (NewsTasks.phase2 NewsTasks.noStrParse NewsTasks.neutralScorer
      NewsTasks.noPhrases 0 ("IBM") (NewsTasks.phase1 NewsTasks.noStrParse
        [NewsTasks.cArticle, NewsTasks.cArticle]) []).dup = 0 ∧
    (NewsTasks.article_key NewsTasks.noStrParse NewsTasks.cArticle).isSome :=
  ⟨by with_unfolding_all rfl,
   of_decide_eq_true (by with_unfolding_all rfl),
   of_decide_eq_true (by with_unfolding_all rfl),
   of_decide_eq_true (by with_unfolding_all rfl)⟩

open NewsTasks in
/-- keyMem is membership of the pair in the key list. -/
theorem keyMem_iff (db : DB) (k sym : String) :
    keyMem db k sym = true ↔ (k, sym) ∈ dbKeys db := by
  simp [keyMem, List.any_eq_true, Bool.and_eq_true, beq_iff_eq, dbKeys,
    List.mem_map, keyOf, Prod.ext_iff]


open NewsTasks in
/-- replaceFirst does not change the key list. -/
theorem replaceFirst_dbKeys (now : ℚ) (db : DB) (k sym : String)
    (f : ArticleFields) :
    dbKeys (replaceFirst now db k sym f) = dbKeys db := by
  induction db with
  | nil => rfl
  | cons r rest ih =>
    by_cases h : (r.title_hash == k && r.symbol == sym) = true
    · simp [replaceFirst, h, dbKeys, keyOf]
    · simp only [replaceFirst, h]
      simp [dbKeys, keyOf] at ih ⊢
      exact ih

open NewsTasks in
/-- The key list after an upsert: unchanged on update, extended by the
new key on create. -/
theorem upsert_dbKeys (now : ℚ) (db : DB) (k sym : String) (f : ArticleFields) :
    dbKeys (upsert now db k sym f).2 =
      if keyMem db k sym then dbKeys db else (k, sym) :: dbKeys db := by
  by_cases h : keyMem db k sym
  · simp [upsert, h, replaceFirst_dbKeys]
  · simp [upsert, h, dbKeys, keyOf]

open NewsTasks in
/-- The created flag is the negated membership test. -/
theorem upsert_created (now : ℚ) (db : DB) (k sym : String) (f : ArticleFields) :
    (upsert now db k sym f).1 = !(keyMem db k sym) := by
  by_cases h : keyMem db k sym <;> simp [upsert, h]

open NewsTasks in
/-- Phase 2 never deletes keys. -/
theorem phase2_keys_mono (strParse : String → Option ℚ)
    (scorer : String → NewsUtils.SentimentResult) (phraseFn : String → List String)
    (now : ℚ) (sym : String) (hsym : sym ≠ ("")) :
    ∀ (D : List RawArticle) (db : DB) (x : String × String), x ∈ dbKeys db →
      x ∈ dbKeys (phase2 strParse scorer phraseFn now sym D db).db := by
  intro D
  induction D with
  | nil => intro db x hx; simpa [phase2] using hx
  | cons a rest ih =>
    intro db x hx
    cases hc : classify strParse scorer phraseFn a with
    | none =>
      simp only [phase2, hc]
      exact ih db x hx
    | some kf =>
      obtain ⟨k, f⟩ := kf
      have hx2 : x ∈ dbKeys (upsert now db k sym f).2 := by
        rw [upsert_dbKeys]
        by_cases h : keyMem db k sym
        · simpa [h] using hx
        · simp [h]
          right
          exact hx
      have := ih (upsert now db k sym f).2 x hx2
      cases hstep : (upsert now db k sym f).1 <;>
        simpa [phase2, hc, update_or_create, hsym, hstep] using this

open NewsTasks in
/-- Phase 2 stores the key of every article it processes. -/
theorem phase2_inserts (strParse : String → Option ℚ)
    (scorer : String → NewsUtils.SentimentResult) (phraseFn : String → List String)
    (now : ℚ) (sym : String) (hsym : sym ≠ ("")) :
    ∀ (D : List RawArticle) (db : DB) (a : RawArticle) (k : String)
      (f : ArticleFields), a ∈ D → classify strParse scorer phraseFn a = some (k, f) →
      (k, sym) ∈ dbKeys (phase2 strParse scorer phraseFn now sym D db).db := by
  intro D
  induction D with
  | nil => intro db a k f ha; simp at ha
  | cons b rest ih =>
    intro db a k f ha hc
    rcases List.mem_cons.mp ha with rfl | har
    · have hk2 : (k, sym) ∈ dbKeys (upsert now db k sym f).2 := by
        rw [upsert_dbKeys]
        by_cases h : keyMem db k sym
        · simpa [h] using (keyMem_iff db k sym).mp h
        · simp [h]
      have := phase2_keys_mono strParse scorer phraseFn now sym hsym rest
        (upsert now db k sym f).2 (k, sym) hk2
      cases hstep : (upsert now db k sym f).1 <;>
        simpa [phase2, hc, update_or_create, hsym, hstep] using this
    · cases hcb : classify strParse scorer phraseFn b with
      | none =>
        simp only [phase2, hcb]
        exact ih db a k f har hc
      | some kfb =>
        obtain ⟨kb, fb⟩ := kfb
        have := ih (upsert now db kb sym fb).2 a k f har hc
        cases hstep : (upsert now db kb sym fb).1 <;>
          simpa [phase2, hcb, update_or_create, hsym, hstep] using this

open NewsTasks in
/-- Phase 2 creates at least one record when some processed article has a
fresh key. -/
theorem phase2_new_pos (strParse : String → Option ℚ)
    (scorer : String → NewsUtils.SentimentResult) (phraseFn : String → List String)
    (now : ℚ) (sym : String) (hsym : sym ≠ ("")) :
    ∀ (D : List RawArticle) (db : DB),
      (∃ a ∈ D, ∃ k f, classify strParse scorer phraseFn a = some (k, f) ∧
        (k, sym) ∉ dbKeys db) →
      0 < (phase2 strParse scorer phraseFn now sym D db).new := by
  intro D
  induction D with
  | nil => rintro db ⟨a, ha, _⟩; simp at ha
  | cons b rest ih =>
    rintro db ⟨a, ha, k, f, hc, hfresh⟩
    cases hcb : classify strParse scorer phraseFn b with
    | none =>
      simp only [phase2, hcb]
      rcases List.mem_cons.mp ha with rfl | har
      · rw [hcb] at hc; cases hc
      · exact ih db ⟨a, har, k, f, hc, hfresh⟩
    | some kfb =>
      obtain ⟨kb, fb⟩ := kfb
      by_cases hmem : keyMem db kb sym
      · have hne : a ∈ rest := by
          rcases List.mem_cons.mp ha with rfl | har
          · rw [hcb] at hc
            injection hc with hc2
            injection hc2 with hk2 _
            rw [hk2] at hmem
            exact absurd ((keyMem_iff db k sym).mp hmem) hfresh
          · exact har
        have hfresh2 : (k, sym) ∉ dbKeys (upsert now db kb sym fb).2 := by
          rw [upsert_dbKeys, if_pos hmem]
          exact hfresh
        have := ih (upsert now db kb sym fb).2 ⟨a, hne, k, f, hc, hfresh2⟩
        have hstep : (upsert now db kb sym fb).1 = false := by
          rw [upsert_created, hmem]
          rfl
        simpa [phase2, hcb, update_or_create, hsym, hstep] using this
      · have hstep : (upsert now db kb sym fb).1 = true := by
          rw [upsert_created]
          simp [hmem]
        simp [phase2, hcb, update_or_create, hsym, hstep]

open NewsTasks in
/-- A found record witnesses key membership. -/
theorem find_some_keyMem (db : DB) (k sym : String) (r : DBRecord)
    (h : db.find? (fun x => x.title_hash == k && x.symbol == sym) = some r) :
    keyMem db k sym = true := by
  rw [keyMem, List.any_eq_true]
  refine ⟨r, List.mem_of_find?_eq_some h, ?_⟩
  have hp := List.find?_some h
  exact hp

open NewsTasks in
/-- Upserts preserve the at-most-one-record-per-key invariant. -/
theorem upsert_nodup (now : ℚ) (db : DB) (k sym : String) (f : ArticleFields)
    (h : nodupKeys db) : nodupKeys (upsert now db k sym f).2 := by
  unfold nodupKeys at h ⊢
  rw [upsert_dbKeys]
  by_cases hm : keyMem db k sym
  · simpa [hm] using h
  · rw [if_neg hm]
    refine List.nodup_cons.mpr ⟨?_, h⟩
    intro hcontra
    exact hm ((keyMem_iff db k sym).mpr hcontra)

open NewsTasks in
/-- Phase 2 preserves the at-most-one-record-per-key invariant. -/
theorem phase2_nodup (strParse : String → Option ℚ)
    (scorer : String → NewsUtils.SentimentResult) (phraseFn : String → List String)
    (now : ℚ) (sym : String) (hsym : sym ≠ ("")) :
    ∀ (D : List RawArticle) (db : DB), nodupKeys db →
      nodupKeys (phase2 strParse scorer phraseFn now sym D db).db := by
  intro D
  induction D with
  | nil => intro db h; simpa [phase2] using h
  | cons a rest ih =>
    intro db h
    cases hc : classify strParse scorer phraseFn a with
    | none =>
      simp only [phase2, hc]
      exact ih db h
    | some kf =>
      obtain ⟨k, f⟩ := kf
      have := ih (upsert now db k sym f).2 (upsert_nodup now db k sym f h)
      cases hstep : (upsert now db k sym f).1 <;>
        simpa [phase2, hc, update_or_create, hsym, hstep] using this

open NewsTasks in
/-- One-step equation for countKey on a cons cell. -/
theorem countKey_cons (r : DBRecord) (rest : DB) (k sym : String) :
    countKey (r :: rest) k sym =
      (if (r.title_hash == k && r.symbol == sym) = true then 1 else 0) +
        countKey rest k sym := by
  by_cases h : (r.title_hash == k && r.symbol == sym) = true
  · simp [countKey, List.filter_cons, h]
    omega
  · simp [countKey, List.filter_cons, h]

open NewsTasks in
/-- The record predicate holds exactly on records with the given key. -/
theorem recPred_iff (r : DBRecord) (k sym : String) :
    (r.title_hash == k && r.symbol == sym) = true ↔ keyOf r = (k, sym) := by
  rw [Bool.and_eq_true, keyOf, Prod.mk.injEq]
  simp [beq_iff_eq]

open NewsTasks in
/-- A key absent from the store has no records. -/
theorem countKey_eq_zero (db : DB) (k sym : String)
    (h : (k, sym) ∉ dbKeys db) : countKey db k sym = 0 := by
  induction db with
  | nil => rfl
  | cons r rest ih =>
    have h' : ¬((k, sym) = keyOf r ∨ (k, sym) ∈ dbKeys rest) := by
      intro hc
      apply h
      rw [show dbKeys (r :: rest) = keyOf r :: dbKeys rest from rfl, List.mem_cons]
      exact hc
    push_neg at h'
    have hr : ¬ (r.title_hash == k && r.symbol == sym) = true := by
      rw [recPred_iff]
      exact fun hc => h'.1 hc.symm
    rw [countKey_cons, if_neg hr, ih h'.2]

open NewsTasks in
/-- A stored key has at least one record. -/
theorem countKey_pos (db : DB) (k sym : String)
    (h : (k, sym) ∈ dbKeys db) : 1 ≤ countKey db k sym := by
  induction db with
  | nil => simp [dbKeys] at h
  | cons r rest ih =>
    rw [countKey_cons]
    by_cases hr : (r.title_hash == k && r.symbol == sym) = true
    · rw [if_pos hr]; omega
    · rw [if_neg hr]
      have hrk : keyOf r ≠ (k, sym) := fun hc => hr ((recPred_iff r k sym).mpr hc)
      have hrest : (k, sym) ∈ dbKeys rest := by
        rcases List.mem_cons.mp (show (k, sym) ∈ keyOf r :: dbKeys rest from h) with hc | hc
        · exact absurd hc.symm hrk
        · exact hc
      simpa using ih hrest

open NewsTasks in
/-- Under the uniqueness invariant every key has at most one record. -/
theorem countKey_le_one (db : DB) (k sym : String) (hn : nodupKeys db) :
    countKey db k sym ≤ 1 := by
  induction db with
  | nil => simp [countKey]
  | cons r rest ih =>
    have hn2 := List.nodup_cons.mp (show (keyOf r :: dbKeys rest).Nodup from hn)
    rw [countKey_cons]
    by_cases hr : (r.title_hash == k && r.symbol == sym) = true
    · have hrk : keyOf r = (k, sym) := (recPred_iff r k sym).mp hr
      have hz : countKey rest k sym = 0 := by
        apply countKey_eq_zero
        rw [← hrk]
        exact hn2.1
      rw [if_pos hr, hz]
    · rw [if_neg hr]
      simpa using ih hn2.2

open NewsTasks in
/-- Under the uniqueness invariant a stored key has exactly one record. -/
theorem countKey_eq_one (db : DB) (k sym : String) (hn : nodupKeys db)
    (hm : (k, sym) ∈ dbKeys db) : countKey db k sym = 1 :=
  le_antisymm (countKey_le_one db k sym hn) (countKey_pos db k sym hm)

open NewsTasks in
/-- After overwriting the record of a stored key, that record is found
with the written fields (its created_at survives, its updated_at is
refreshed). -/
theorem replaceFirst_find_self (now : ℚ) (db : DB) (k sym : String)
    (f : ArticleFields) (h : keyMem db k sym = true) :
    foundWith (replaceFirst now db k sym f) k sym f := by
  induction db with
  | nil => simp [keyMem] at h
  | cons r rest ih =>
    by_cases hr : (r.title_hash == k && r.symbol == sym) = true
    · have hk := (recPred_iff r k sym).mp hr
      rw [keyOf, Prod.mk.injEq] at hk
      refine ⟨r.created_at, now, ?_⟩
      simp only [replaceFirst, hr, if_pos, List.find?_cons]
      simp [hk.1, hk.2, hr]
    · have hrest : keyMem rest k sym = true := by
        rw [keyMem, List.any_cons, Bool.or_eq_true] at h
        rcases h with hh | hh
        · exact absurd hh hr
        · exact hh
      obtain ⟨c, u, hcu⟩ := ih hrest
      refine ⟨c, u, ?_⟩
      simp only [replaceFirst, hr]
      simp only [List.find?_cons, hr, Bool.false_eq_true, if_false]
      simpa [hr] using hcu

open NewsTasks in
/-- After an upsert the upserted key is found with the written fields. -/
theorem upsert_find_self (now : ℚ) (db : DB) (k sym : String) (f : ArticleFields) :
    foundWith (upsert now db k sym f).2 k sym f := by
  by_cases h : keyMem db k sym = true
  · simp only [upsert, h, if_pos]
    exact replaceFirst_find_self now db k sym f h
  · refine ⟨now, now, ?_⟩
    simp only [upsert, h, if_false, List.find?_cons]
    simp

open NewsTasks in
/-- Overwriting one key leaves the lookup of any other key unchanged. -/
theorem replaceFirst_find_other (now : ℚ) (db : DB) (k sym k2 s2 : String)
    (f : ArticleFields) (hne : (k2, s2) ≠ (k, sym)) :
    (replaceFirst now db k sym f).find?
      (fun x => x.title_hash == k2 && x.symbol == s2) =
      db.find? (fun x => x.title_hash == k2 && x.symbol == s2) := by
  induction db with
  | nil => rfl
  | cons r rest ih =>
    by_cases hr : (r.title_hash == k && r.symbol == sym) = true
    · have hk := (recPred_iff r k sym).mp hr
      have hnp : ¬ (r.title_hash == k2 && r.symbol == s2) = true := by
        intro hc
        have hk2 := (recPred_iff r k2 s2).mp hc
        exact hne (by rw [← hk2, hk])
      simp only [replaceFirst, hr, if_pos, List.find?_cons]
      simp [hnp]
    · simp only [replaceFirst, hr, Bool.false_eq_true, if_false, List.find?_cons]
      by_cases hp2 : (r.title_hash == k2 && r.symbol == s2) = true
      · simp [hp2]
      · simp [hp2, ih]

open NewsTasks in
/-- An upsert leaves the lookup of any other key unchanged. -/
theorem upsert_find_other (now : ℚ) (db : DB) (k sym k2 s2 : String)
    (f : ArticleFields) (hne : (k2, s2) ≠ (k, sym)) :
    ((upsert now db k sym f).2).find?
      (fun x => x.title_hash == k2 && x.symbol == s2) =
      db.find? (fun x => x.title_hash == k2 && x.symbol == s2) := by
  by_cases h : keyMem db k sym = true
  · simp only [upsert, h, if_pos]
    exact replaceFirst_find_other now db k sym k2 s2 f hne
  · have hnp : ¬ ((k == k2) && (sym == s2)) = true := by
      intro hc
      rw [Bool.and_eq_true] at hc
      have h1 : k = k2 := beq_iff_eq.mp hc.1
      have h2 : sym = s2 := beq_iff_eq.mp hc.2
      exact hne (by rw [← h1, ← h2])
    simp only [upsert, h, if_false, List.find?_cons]
    simp [hnp]

open NewsTasks in
/-- Phase 2 leaves the lookup of a key it never upserts unchanged. -/
theorem phase2_find_preserved (strParse : String → Option ℚ)
    (scorer : String → NewsUtils.SentimentResult) (phraseFn : String → List String)
    (now : ℚ) (sym : String) (hsym : sym ≠ ("")) :
    ∀ (D : List RawArticle) (db : DB) (k2 s2 : String),
      (∀ a ∈ D, ∀ k f, classify strParse scorer phraseFn a = some (k, f) →
        (k2, s2) ≠ (k, sym)) →
      ((phase2 strParse scorer phraseFn now sym D db).db).find?
        (fun x => x.title_hash == k2 && x.symbol == s2) =
        db.find? (fun x => x.title_hash == k2 && x.symbol == s2) := by
  intro D
  induction D with
  | nil => intro db k2 s2 _; simp [phase2]
  | cons b rest ih =>
    intro db k2 s2 hall
    cases hcb : classify strParse scorer phraseFn b with
    | none =>
      simp only [phase2, hcb]
      exact ih db k2 s2 (fun a ha => hall a (List.mem_cons_of_mem _ ha))
    | some kf =>
      obtain ⟨kb, fb⟩ := kf
      have hne := hall b (List.mem_cons_self _ _) kb fb hcb
      have hdb : ((phase2 strParse scorer phraseFn now sym (b :: rest) db).db) =
          (phase2 strParse scorer phraseFn now sym rest
            (upsert now db kb sym fb).2).db := by
        cases hstep : (upsert now db kb sym fb).1 <;>
          simp [phase2, hcb, update_or_create, hsym, hstep]
      rw [hdb,
        ih (upsert now db kb sym fb).2 k2 s2
          (fun a ha => hall a (List.mem_cons_of_mem _ ha)),
        upsert_find_other now db kb sym k2 s2 fb hne]

open NewsTasks in
/-- Overwriting a record with the fields it already carries changes
nothing but the updated_at stamp: the key and field content of the store
is untouched. -/
theorem replaceFirst_content (now : ℚ) (db : DB) (k sym : String)
    (f : ArticleFields) (h : foundWith db k sym f) :
    dbContent (replaceFirst now db k sym f) = dbContent db := by
  obtain ⟨c, u, h⟩ := h
  induction db with
  | nil => simp at h
  | cons r rest ih =>
    by_cases hr : (r.title_hash == k && r.symbol == sym) = true
    · rw [List.find?_cons] at h
      simp only [hr] at h
      injection h with h2
      have hf : r.flds = f := by rw [h2]
      simp [replaceFirst, hr, dbContent, hf]
    · rw [List.find?_cons] at h
      simp only [hr, Bool.false_eq_true] at h
      simp only [replaceFirst, hr, Bool.false_eq_true, if_false]
      have ht := ih h
      simp only [dbContent, List.map_cons] at ht ⊢
      rw [ht]

open NewsTasks in
/-- A key found in the phase-1 key list comes from some article. -/
theorem mem_keysOf_exists (strParse : String → Option ℚ) (l : List RawArticle)
    (k : String) (h : k ∈ keysOf strParse l) :
    ∃ a ∈ l, article_key strParse a = some k := by
  rw [keysOf, List.mem_filterMap] at h
  exact h

open NewsTasks in
/-- When every processed article (with pairwise distinct keys) already
has its record stored with exactly the fields the run would write,
phase 2 creates nothing, counts every article as duplicate, and changes
the store only by refreshing auto_now updated_at stamps: its key and
field content is untouched. -/
theorem phase2_all_existing (strParse : String → Option ℚ)
    (scorer : String → NewsUtils.SentimentResult) (phraseFn : String → List String)
    (now : ℚ) (sym : String) (hsym : sym ≠ ("")) :
    ∀ (D : List RawArticle) (db : DB), (keysOf strParse D).Nodup →
      (∀ a ∈ D, (classify strParse scorer phraseFn a).isSome) →
      (∀ a ∈ D, ∀ k f, classify strParse scorer phraseFn a = some (k, f) →
        foundWith db k sym f) →
      (phase2 strParse scorer phraseFn now sym D db).new = 0 ∧
      (phase2 strParse scorer phraseFn now sym D db).dup = D.length ∧
      dbContent (phase2 strParse scorer phraseFn now sym D db).db = dbContent db := by
  intro D
  induction D with
  | nil => intro db _ _ _; exact ⟨rfl, rfl, rfl⟩
  | cons b rest ih =>
    intro db hnd hval hfind
    obtain ⟨kf, hcb⟩ := Option.isSome_iff_exists.mp (hval b (List.mem_cons_self _ _))
    obtain ⟨kb, fb⟩ := kf
    obtain ⟨c, u, hfb2⟩ := hfind b (List.mem_cons_self _ _) kb fb hcb
    have hmem : keyMem db kb sym = true := find_some_keyMem db kb sym _ hfb2
    have hcont : dbContent (replaceFirst now db kb sym fb) = dbContent db :=
      replaceFirst_content now db kb sym fb ⟨c, u, hfb2⟩
    have hkeys : keysOf strParse (b :: rest) = kb :: keysOf strParse rest := by
      simp [keysOf, List.filterMap_cons,
        article_key_classify strParse scorer phraseFn b, hcb]
    rw [hkeys] at hnd
    have hnd2 := List.nodup_cons.mp hnd
    have hfind2 : ∀ a ∈ rest, ∀ k f, classify strParse scorer phraseFn a = some (k, f) →
        foundWith (replaceFirst now db kb sym fb) k sym f := by
      intro a ha k f hc
      have hkmem : k ∈ keysOf strParse rest := by
        rw [keysOf, List.mem_filterMap]
        refine ⟨a, ha, ?_⟩
        rw [article_key_classify strParse scorer phraseFn, hc]
        rfl
      have hne : (k, sym) ≠ (kb, sym) := by
        intro hcontra
        injection hcontra with hkk _
        rw [hkk] at hkmem
        exact hnd2.1 hkmem
      obtain ⟨c2, u2, hcu2⟩ := hfind a (List.mem_cons_of_mem _ ha) k f hc
      refine ⟨c2, u2, ?_⟩
      rw [replaceFirst_find_other now db kb sym k sym fb hne]
      exact hcu2
    have ihr := ih (replaceFirst now db kb sym fb) hnd2.2
      (fun a ha => hval a (List.mem_cons_of_mem _ ha)) hfind2
    have hred : phase2 strParse scorer phraseFn now sym (b :: rest) db =
        ⟨(phase2 strParse scorer phraseFn now sym rest
            (replaceFirst now db kb sym fb)).new,
          (phase2 strParse scorer phraseFn now sym rest
            (replaceFirst now db kb sym fb)).dup + 1,
          (phase2 strParse scorer phraseFn now sym rest
            (replaceFirst now db kb sym fb)).db⟩ := by
      simp [phase2, hcb, update_or_create, hsym, upsert, hmem]
    rw [hred]
    exact ⟨ihr.1, by simp [ihr.2.1], ihr.2.2.trans hcont⟩

open NewsTasks in
/-- After a run over articles with pairwise distinct keys, every
processed article is found in the store with exactly the fields the run
wrote. -/
theorem phase2_establishes (strParse : String → Option ℚ)
    (scorer : String → NewsUtils.SentimentResult) (phraseFn : String → List String)
    (now : ℚ) (sym : String) (hsym : sym ≠ ("")) :
    ∀ (D : List RawArticle) (db : DB), (keysOf strParse D).Nodup →
      (∀ a ∈ D, (classify strParse scorer phraseFn a).isSome) →
      ∀ a ∈ D, ∀ k f, classify strParse scorer phraseFn a = some (k, f) →
        foundWith ((phase2 strParse scorer phraseFn now sym D db).db) k sym f := by
  intro D
  induction D with
  | nil => intro db _ _ a ha; simp at ha
  | cons b rest ih =>
    intro db hnd hval a ha k f hc
    obtain ⟨kfb, hcb⟩ := Option.isSome_iff_exists.mp (hval b (List.mem_cons_self _ _))
    obtain ⟨kb, fb⟩ := kfb
    have hkeys : keysOf strParse (b :: rest) = kb :: keysOf strParse rest := by
      simp [keysOf, List.filterMap_cons,
        article_key_classify strParse scorer phraseFn b, hcb]
    rw [hkeys] at hnd
    have hnd2 := List.nodup_cons.mp hnd
    have hrestval : ∀ x ∈ rest, (classify strParse scorer phraseFn x).isSome :=
      fun x hx => hval x (List.mem_cons_of_mem _ hx)
    have hdb : ((phase2 strParse scorer phraseFn now sym (b :: rest) db).db) =
        (phase2 strParse scorer phraseFn now sym rest
          (upsert now db kb sym fb).2).db := by
      cases hstep : (upsert now db kb sym fb).1 <;>
        simp [phase2, hcb, update_or_create, hsym, hstep]
    rw [hdb]
    rcases List.mem_cons.mp ha with rfl | har
    · rw [hcb] at hc
      injection hc with hc2
      injection hc2 with hk hf
      subst hk
      subst hf
      have hpres : ((phase2 strParse scorer phraseFn now sym rest
          (upsert now db kb sym fb).2).db).find?
          (fun x => x.title_hash == kb && x.symbol == sym) =
          ((upsert now db kb sym fb).2).find?
            (fun x => x.title_hash == kb && x.symbol == sym) := by
        apply phase2_find_preserved strParse scorer phraseFn now sym hsym
        intro x hx kx fx hcx
        have hkx : kx ∈ keysOf strParse rest := by
          rw [keysOf, List.mem_filterMap]
          refine ⟨x, hx, ?_⟩
          rw [article_key_classify strParse scorer phraseFn, hcx]
          rfl
        intro hcontra
        injection hcontra with hkk _
        rw [hkk] at hnd2
        exact hnd2.1 hkx
      obtain ⟨c2, u2, hcu⟩ := upsert_find_self now db kb sym fb
      refine ⟨c2, u2, ?_⟩
      rw [hpres]
      exact hcu
    · exact ih (upsert now db kb sym fb).2 hnd2.2 hrestval a har k f hc

open NewsTasks in
/-- A valid dedup key comes with classification fields. -/
theorem classify_of_key (strParse : String → Option ℚ)
    (scorer : String → NewsUtils.SentimentResult) (phraseFn : String → List String)
    (a : RawArticle) (k : String) (h : article_key strParse a = some k) :
    ∃ f, classify strParse scorer phraseFn a = some (k, f) := by
  rw [article_key_classify strParse scorer phraseFn] at h
  cases hc : classify strParse scorer phraseFn a with
  | none => rw [hc] at h; simp at h
  | some kf =>
    obtain ⟨kk, ff⟩ := kf
    rw [hc] at h
    simp at h
    exact ⟨ff, by rw [h]⟩

open NewsTasks in
/-- Every phase-1 survivor is classifiable. -/
theorem phase1_classify_isSome (strParse : String → Option ℚ)
    (scorer : String → NewsUtils.SentimentResult) (phraseFn : String → List String)
    (arts : List RawArticle) :
    ∀ a ∈ phase1 strParse arts, (classify strParse scorer phraseFn a).isSome := by
  intro a ha
  have hv := phase1Aux_valid strParse arts [] a (by simpa [phase1] using ha)
  rw [article_key_classify strParse scorer phraseFn] at hv
  cases hc : classify strParse scorer phraseFn a
  · rw [hc] at hv; simp at hv
  · simp

open NewsTasks in
/-- An article with a dedup key cannot raise in the phase-1 loop. -/
theorem phase1_raises_single (strParse : String → Option ℚ) (a : RawArticle)
    (k : String) (h : article_key strParse a = some k) :
    phase1_raises strParse [a] = false := by
  simp only [phase1_raises, List.any_cons, List.any_nil, Bool.or_false]
  rw [article_key] at h
  by_cases ht : normalize_title (effectiveTitle a) = ("")
  · simp [ht]
  · simp only [ht, if_false] at h
    cases hp : parse_date strParse a with
    | ok t => simp [hp]
    | invalid => rw [hp] at h; cases h
    | raises => rw [hp] at h; cases h

open NewsTasks in
/-- Claim C2, amended.  For a truthy symbol and a payload no article of
which aborts the batch in phase 1 (no integer timestamp out of datetime
range under both readings), given at least one valid article whose
fingerprint is not yet stored for the symbol: the first run returns
normally and creates at least one record; running the same payload again
(at any later write time) returns normally, creates nothing, classifies
every phase-1 survivor as a duplicate, and changes the store only by
refreshing auto_now updated_at stamps - its key and field content is
untouched; under the per-key uniqueness invariant no key ever holds more
than one record, and re-ingesting two articles with the same fingerprint
(same normalized title and minute bucket, possibly from different
provider shapes, at any write times) converges to exactly one stored
record. -/
theorem ingestion_idempotent (strParse : String → Option ℚ)
    (scorer : String → NewsUtils.SentimentResult) (phraseFn : String → List String)
    (now1 now2 : ℚ) (sym : String) (arts : List RawArticle) (db0 : DB)
    (hsym : sym ≠ (""))
    (hnr : phase1_raises strParse arts = false)
    (h : ∃ a ∈ arts, fresh_valid strParse db0 sym a = true) :
    ∃ r1 r2 : PRes,
      process_articles strParse scorer phraseFn now1 sym arts db0 = .done r1 ∧
      process_articles strParse scorer phraseFn now2 sym arts r1.db = .done r2 ∧
      0 < r1.new ∧
      r2.new = 0 ∧
      r2.dup = (phase1 strParse arts).length ∧
      dbContent r2.db = dbContent r1.db ∧
      (nodupKeys db0 → ∀ k : String, countKey r2.db k sym ≤ 1) ∧
      (∀ a1 a2 : RawArticle, ∀ k : String, ∀ db : DB, ∀ m1 m2 : ℚ,
        nodupKeys db →
        article_key strParse a1 = some k → article_key strParse a2 = some k →
        ∃ s1 s2 : PRes,
          process_articles strParse scorer phraseFn m1 sym [a1] db = .done s1 ∧
          process_articles strParse scorer phraseFn m2 sym [a2] s1.db = .done s2 ∧
          countKey s2.db k sym = 1) := by
  have hvalD := phase1_classify_isSome strParse scorer phraseFn arts
  have hndD : (keysOf strParse (phase1 strParse arts)).Nodup := by
    simpa [phase1] using (phase1Aux_keys_fresh strParse arts []).2
  have hEst := phase2_establishes strParse scorer phraseFn now1 sym hsym
    (phase1 strParse arts) db0 hndD hvalD
  have hAll := phase2_all_existing strParse scorer phraseFn now2 sym hsym
    (phase1 strParse arts)
    (phase2 strParse scorer phraseFn now1 sym (phase1 strParse arts) db0).db
    hndD hvalD (fun a ha k f hc => hEst a ha k f hc)
  refine ⟨phase2 strParse scorer phraseFn now1 sym (phase1 strParse arts) db0,
    phase2 strParse scorer phraseFn now2 sym (phase1 strParse arts)
      (phase2 strParse scorer phraseFn now1 sym (phase1 strParse arts) db0).db,
    ?_, ?_, ?_, hAll.1, hAll.2.1, hAll.2.2, ?_, ?_⟩
  · simp [process_articles, hnr]
  · simp [process_articles, hnr]
  · obtain ⟨a, ha, hfa⟩ := h
    rw [fresh_valid] at hfa
    cases hk : article_key strParse a with
    | none => simp only [hk] at hfa; exact absurd hfa (by decide)
    | some k =>
      simp only [hk, Bool.not_eq_true'] at hfa
      have hkm : keyMem db0 k sym = false := hfa
      rcases phase1Aux_covers strParse arts [] k ⟨a, ha, hk⟩ with h1 | h2
      · simp at h1
      · obtain ⟨b, hbD, hbk⟩ := mem_keysOf_exists strParse _ k h2
        obtain ⟨fb, hcb⟩ := classify_of_key strParse scorer phraseFn b k hbk
        apply phase2_new_pos strParse scorer phraseFn now1 sym hsym
        refine ⟨b, (by simpa [phase1] using hbD), k, fb, hcb, ?_⟩
        intro hcontra
        have hkm2 := (keyMem_iff db0 k sym).mpr hcontra
        rw [hkm] at hkm2
        exact absurd hkm2 (by decide)
  · intro hnd k
    have hnd1 : nodupKeys (phase2 strParse scorer phraseFn now1 sym
        (phase1 strParse arts) db0).db :=
      phase2_nodup strParse scorer phraseFn now1 sym hsym (phase1 strParse arts) db0 hnd
    have hnd2 : nodupKeys (phase2 strParse scorer phraseFn now2 sym
        (phase1 strParse arts)
        (phase2 strParse scorer phraseFn now1 sym (phase1 strParse arts) db0).db).db :=
      phase2_nodup strParse scorer phraseFn now2 sym hsym (phase1 strParse arts) _ hnd1
    exact countKey_le_one _ k sym hnd2
  · intro a1 a2 k db m1 m2 hnd hk1 hk2
    obtain ⟨f1, hc1⟩ := classify_of_key strParse scorer phraseFn a1 k hk1
    obtain ⟨f2, hc2⟩ := classify_of_key strParse scorer phraseFn a2 k hk2
    have hr1 := phase1_raises_single strParse a1 k hk1
    have hr2 := phase1_raises_single strParse a2 k hk2
    have hph1 : phase1 strParse [a1] = [a1] := by
      simp [phase1, phase1Aux, hk1]
    have hph2 : phase1 strParse [a2] = [a2] := by
      simp [phase1, phase1Aux, hk2]
    refine ⟨phase2 strParse scorer phraseFn m1 sym (phase1 strParse [a1]) db,
      phase2 strParse scorer phraseFn m2 sym (phase1 strParse [a2])
        (phase2 strParse scorer phraseFn m1 sym (phase1 strParse [a1]) db).db,
      by simp [process_articles, hr1], by simp [process_articles, hr2], ?_⟩
    have hmem1 : (k, sym) ∈ dbKeys
        (phase2 strParse scorer phraseFn m1 sym (phase1 strParse [a1]) db).db := by
      rw [hph1]
      exact phase2_inserts strParse scorer phraseFn m1 sym hsym [a1] db a1 k f1
        (List.mem_cons_self _ _) hc1
    have hnd1 : nodupKeys (phase2 strParse scorer phraseFn m1 sym
        (phase1 strParse [a1]) db).db :=
      phase2_nodup strParse scorer phraseFn m1 sym hsym _ db hnd
    have hmem2 : (k, sym) ∈ dbKeys (phase2 strParse scorer phraseFn m2 sym
        (phase1 strParse [a2]) (phase2 strParse scorer phraseFn m1 sym
          (phase1 strParse [a1]) db).db).db := by
      rw [hph2]
      exact phase2_keys_mono strParse scorer phraseFn m2 sym hsym [a2] _ (k, sym) hmem1
    have hnd2 : nodupKeys (phase2 strParse scorer phraseFn m2 sym
        (phase1 strParse [a2]) (phase2 strParse scorer phraseFn m1 sym
          (phase1 strParse [a1]) db).db).db :=
      phase2_nodup strParse scorer phraseFn m2 sym hsym _ _ hnd1
    exact countKey_eq_one _ _ _ hnd2 hmem2

/-- Witness of claim C2 on a concrete single-article payload over the
empty store, with distinct write times for the two runs. -/
theorem ingestion_idempotent_witness :
    (("IBM") : String) ≠ ("") ∧
    NewsTasks.phase1_raises NewsTasks.noStrParse [NewsTasks.cArticle] = false ∧
    (∃ a ∈ [NewsTasks.cArticle],
      NewsTasks.fresh_valid NewsTasks.noStrParse [] ("IBM") a = true) ∧
    ∃ r1 r2 : NewsTasks.PRes,
      NewsTasks.process_articles NewsTasks.noStrParse NewsTasks.neutralScorer
        NewsTasks.noPhrases 0 ("IBM") [NewsTasks.cArticle] [] = .done r1 ∧
      NewsTasks.process_articles NewsTasks.noStrParse NewsTasks.neutralScorer
        NewsTasks.noPhrases 1 ("IBM") [NewsTasks.cArticle] r1.db = .done r2 ∧
      0 < r1.new ∧ r2.new = 0 ∧
      NewsTasks.dbContent r2.db = NewsTasks.dbContent r1.db :=
  have hs : (("IBM") : String) ≠ ("") := of_decide_eq_true (by with_unfolding_all rfl)
  have hnr : NewsTasks.phase1_raises NewsTasks.noStrParse [NewsTasks.cArticle] = false :=
    of_decide_eq_true (by with_unfolding_all rfl)
  have hh : ∃ a ∈ [NewsTasks.cArticle],
      NewsTasks.fresh_valid NewsTasks.noStrParse [] ("IBM") a = true :=
    of_decide_eq_true (by with_unfolding_all rfl)
  ⟨hs, hnr, hh, by
    obtain ⟨r1, r2, h1, h2, h3, h4, _, h6, _, _⟩ := ingestion_idempotent
      NewsTasks.noStrParse NewsTasks.neutralScorer NewsTasks.noPhrases 0 1 ("IBM")
      [NewsTasks.cArticle] [] hs hnr hh
    exact ⟨r1, r2, h1, h2, h3, h4, h6⟩⟩

/-- Claim C2 as stated is false for the empty (falsy) symbol, an input
its every-symbol quantifier covers: with one valid article whose
fingerprint is not yet stored, the first run creates nothing - both
update_or_create paths reach ProcessedNews.save, which raises
ValidationError on a falsy symbol, and the phase-2 handler skips the
article, so it is counted neither as new nor as duplicate and the store
stays empty. -/
theorem ingestion_empty_symbol_counterexample :
    (∃ a ∈ [NewsTasks.cArticle],
      NewsTasks.fresh_valid NewsTasks.noStrParse [] ("") a = true) ∧
    NewsTasks.process_articles NewsTasks.noStrParse NewsTasks.neutralScorer
      NewsTasks.noPhrases 0 ("") [NewsTasks.cArticle] [] = .done ⟨0, 0, []⟩ :=
  of_decide_eq_true (by with_unfolding_all rfl)

open OpinionSentiment in
/-- For valid articles the score loop accumulates exactly the spec
contributions, in order. -/
theorem step_scores (now : ℝ) :
    ∀ (articles : List NewsArticle) (init : List ℝ) (c : Counts),
      (∀ a ∈ articles, validArticle a = true) →
      (articles.foldl (step now) (init, c)).1 =
        init ++ articles.map (article_contribution now) := by
  intro articles
  induction articles with
  | nil => intro init c _; simp
  | cons a rest ih =>
    intro init c hval
    have hva := hval a (List.mem_cons_self _ _)
    rw [validArticle] at hva
    simp only [Bool.and_eq_true] at hva
    obtain ⟨⟨⟨⟨hpub, hsent⟩, hconf⟩, hrel⟩, hlab⟩ := hva
    obtain ⟨pub, hpub'⟩ := Option.isSome_iff_exists.mp hpub
    obtain ⟨s, hsent'⟩ := Option.isSome_iff_exists.mp hsent
    obtain ⟨cf, hconf'⟩ := Option.isSome_iff_exists.mp hconf
    obtain ⟨rl, hrel'⟩ := Option.isSome_iff_exists.mp hrel
    have hstep : step now (init, c) a =
        (init ++ [article_contribution now a],
          if labelKnown s.toLower then bumpCount c s.toLower else c) := by
      rw [step, hpub', hsent', hconf', hrel']
      have hcontrib : sentimentValueOf s.toLower *
          (cf * (rl / 100) * Real.exp (-((now - pub) / 3600) / 24) *
            tierWeight a.source) = article_contribution now a := by
        rw [article_contribution, hpub', hsent', hconf', hrel']
        simp only [Option.getD_some]
        ring
      by_cases hl : labelKnown s.toLower = true <;> simp [hl, hcontrib]
    rw [List.foldl_cons, hstep,
      ih (init ++ [article_contribution now a]) _
        (fun b hb => hval b (List.mem_cons_of_mem _ hb))]
    simp

open OpinionSentiment in
/-- Evaluation of the aggregated score on valid articles: mean of
contributions times regime adjustment, clipped once. -/
theorem analyze_score_eval (now : ℝ) (articles : List NewsArticle)
    (regime : StockEngine.MarketRegime) (h1 : articles ≠ [])
    (h2 : ∀ a ∈ articles, validArticle a = true) :
    analyze_sentiment_score now articles regime =
      clip1 ((articles.map (article_contribution now)).sum /
        (articles.length : ℝ) * regimeAdj regime) := by
  have hscores := step_scores now articles [] ⟨0, 0, 0⟩ h2
  rw [analyze_sentiment_score]
  have hne : articles.isEmpty = false := by
    cases articles
    · exact absurd rfl h1
    · rfl
  rw [hne]
  simp only [Bool.false_eq_true, if_false]
  rw [hscores]
  simp only [List.nil_append]
  have hmapne : (articles.map (article_contribution now)).isEmpty = false := by
    cases articles
    · exact absurd rfl h1
    · rfl
  rw [hmapne]
  simp [List.length_map]

open OpinionSentiment in
/-- Claim C5, amended.  For every non-empty list of valid articles the
aggregated score equals the mean of the spec contributions multiplied by
the regime adjustment and clipped once to the interval: the code performs
no pre-clip before the regime multiplication. -/
theorem sentiment_aggregate_single_clip (now : ℝ) (articles : List NewsArticle)
    (regime : StockEngine.MarketRegime) (h1 : articles ≠ [])
    (h2 : ∀ a ∈ articles, validArticle a = true) :
    analyze_sentiment_score now articles regime =
      single_clip_aggregate now articles regime :=
  analyze_score_eval now articles regime h1 h2

open OpinionSentiment in
/-- Witness of the amended claim C5 on a concrete tier-1 article. -/
theorem sentiment_aggregate_single_clip_witness :
    analyze_sentiment_score 0 [bearCaseArticle] StockEngine.MarketRegime.neutral =
      single_clip_aggregate 0 [bearCaseArticle] StockEngine.MarketRegime.neutral :=
  sentiment_aggregate_single_clip 0 [bearCaseArticle] StockEngine.MarketRegime.neutral
    (by simp)
    (by
      intro a ha
      rw [List.mem_singleton] at ha
      subst ha
      exact of_decide_eq_true (by with_unfolding_all rfl))

open OpinionSentiment in
/-- Claim C5 as stated is false: on a single fully weighted tier-1
article published at the analysis instant (contribution 2.0) under the
bear regime, the code returns clip(2 x 0.9) = 1 while the spec formula
clip(clip(2) x 0.9) returns 0.9. -/
theorem sentiment_clip_order_counterexample :
    validArticle bearCaseArticle = true ∧
    analyze_sentiment_score 0 [bearCaseArticle] StockEngine.MarketRegime.bear = 1 ∧
    spec_sentiment_aggregate 0 [bearCaseArticle] StockEngine.MarketRegime.bear = 9/10 ∧
    analyze_sentiment_score 0 [bearCaseArticle] StockEngine.MarketRegime.bear ≠
      spec_sentiment_aggregate 0 [bearCaseArticle] StockEngine.MarketRegime.bear := by
  have hval : validArticle bearCaseArticle = true :=
    of_decide_eq_true (by with_unfolding_all rfl)
  have hcontrib : article_contribution 0 bearCaseArticle = 2 := by
    rw [article_contribution, bearCaseArticle]
    have hlow : ("positive").toLower = ("positive") :=
      of_decide_eq_true (by with_unfolding_all rfl)
    have hmem : ("Bloomberg") ∈ tier1_sources := by
      rw [tier1_sources]
      exact List.mem_cons_self _ _
    simp only [Option.getD_some, hlow, sentimentValueOf, if_pos rfl, tierWeight, hmem,
      if_pos]
    norm_num [Real.exp_zero]
  have hcode : analyze_sentiment_score 0 [bearCaseArticle]
      StockEngine.MarketRegime.bear = 1 := by
    rw [analyze_score_eval 0 [bearCaseArticle]
      StockEngine.MarketRegime.bear (by simp)
      (by
        intro a ha
        rw [List.mem_singleton] at ha
        subst ha
        exact hval)]
    simp only [List.map_cons, List.map_nil, hcontrib, List.sum_cons, List.sum_nil,
      List.length_cons, List.length_nil, regimeAdj, clip1]
    norm_num
  have hspec : spec_sentiment_aggregate 0 [bearCaseArticle]
      StockEngine.MarketRegime.bear = 9/10 := by
    rw [spec_sentiment_aggregate]
    simp only [List.map_cons, List.map_nil, hcontrib, List.sum_cons, List.sum_nil,
      List.length_cons, List.length_nil, regimeAdj, clip1]
    norm_num
  refine ⟨hval, hcode, hspec, ?_⟩
  rw [hcode, hspec]
  norm_num
